import Mathlib

/-!
Shallow embedding of the Textract result-processing pipeline (`src/lambda.py`)
and proofs about it.

Conventions of the embedding:
* Textract blocks are modelled by the `Block` structure; dictionary fields that
  the Python code reads with `.get` (and that may be absent) are `Option`s,
  fields the code indexes directly are modelled as required for the block types
  on which the code performs that access (a WORD block always carries `Text`,
  a SELECTION_ELEMENT always carries `SelectionStatus`).  The two accesses
  `cell_block['RowIndex']` / `cell_block['ColumnIndex']` in the structural
  table builders are kept fallible (`Option Nat`): a missing index raises a
  `KeyError` in Python that no per-table handler catches, which we model as
  `Except.error ()` propagating out of the document-level parser.
* `blocks_map` (`{block['Id']: block for block in blocks}`) is modelled by
  `findBlock`, a last-entry-wins lookup over the block list.
* Geometry coordinates and confidences are rationals (`ℚ`); the Python floats
  are modelled exactly, not with rounding error.
* `str.strip()` is modelled by `pyStrip` (whitespace trimming on both ends).
* `round(x, 2)` is modelled by `round2` (round half up to 2 decimals; Python
  rounds half to even, but no computation in this development hits a tie).
* The `try/except` wrapping the whole of `reconstruct_table_structure_spatially`
  (lambda.py lines 523 and 760-763) turns any unexpected exception inside the
  spatial pass into the `None` failure result.  The embedded body is total, so
  the catch is modelled by an explicit per-table exception oracle
  (`exc : Nat → Bool`) at the call site: an injected fault behaves exactly like
  a spatial failure.  No such handler exists around the structural fallback.
* The unused diagnostic payloads (`reconstruction_metadata`, the transient
  `parent_cell` tag, the stored `bottom` edge) are not modelled; nothing reads
  them.  The optional OpenAI restructuring step is disabled configuration
  (`OPENAI_API_KEY` unset), hence omitted.

The `Rat` arithmetic operations are restored to their definitional
reducibility so that concrete runs of the embedded pipeline can be evaluated
by `decide`; this changes nothing about provability, only about unfolding.
-/

set_option allowUnsafeReducibility true
attribute [semireducible] Rat.add Rat.mul Rat.sub Rat.inv Rat.ofScientific

/-- Python `str.strip()` on the strings this pipeline produces: drop leading
and trailing whitespace. -/
def pyStrip (s : String) : String :=
  ⟨((s.data.dropWhile Char.isWhitespace).reverse.dropWhile Char.isWhitespace).reverse⟩

/-- Python `round(x, 2)`: rounding to two decimal places (half-up model). -/
def round2 (q : ℚ) : ℚ := (round (q * 100) : ℤ) / 100

/-- Python `min` over a nonempty list, with the pipeline's `if confidences
else 0.0` default folded in (lambda.py line 85). -/
def minList (l : List ℚ) : ℚ :=
  match l with
  | [] => 0
  | c :: cs => cs.foldl min c

/-- Stable insertion into a list sorted by `le` (ties keep earlier elements in
front), the building block of the stable sorts below. -/
def insLE (le : α → α → Bool) (a : α) : List α → List α
  | [] => [a]
  | b :: bs => if le a b then a :: b :: bs else b :: insLE le a bs

/-- Stable sort by the boolean order `le`, modelling Python's stable
`list.sort(key=...)`. -/
def sortLE (le : α → α → Bool) (l : List α) : List α := l.foldr (insLE le) []

/-- Insertion into a strictly increasing list, dropping duplicates. -/
def insertSortedNoDup (x : ℚ) : List ℚ → List ℚ
  | [] => [x]
  | y :: ys =>
    if x < y then x :: y :: ys
    else if x = y then y :: ys
    else y :: insertSortedNoDup x ys

/-- Python `sorted(set(xs))`: the strictly increasing list of the distinct
values of `xs`. -/
def sortedDedup (xs : List ℚ) : List ℚ := xs.foldr insertSortedNoDup []

/-- Append `w` to the group keyed `c`, creating the group at the end if the
key is new: the insertion-order dictionary update `d.setdefault(c, []).append`
pattern of lambda.py lines 730-732. -/
def addToGroup (g : List (Nat × List α)) (c : Nat) (w : α) : List (Nat × List α) :=
  match g with
  | [] => [(c, [w])]
  | (k, ws) :: rest =>
    if k = c then (k, ws ++ [w]) :: rest else (k, ws) :: addToGroup rest c w

/-- The block types of the Textract result graph (spec §3). -/
inductive BlockType
  | PAGE | LINE | WORD | TABLE | CELL | MERGED_CELL | KEY_VALUE_SET | SELECTION_ELEMENT
deriving DecidableEq

/-- The relationship edge types the pipeline reads. -/
inductive RelType
  | CHILD | VALUE
deriving DecidableEq

/-- A typed edge list of a block (`block['Relationships']` entries). -/
structure Relationship where
  relType : RelType
  ids : List String
deriving DecidableEq

/-- A bounding box in fractional page coordinates
(`Geometry.BoundingBox`); a box whose four coordinates are not all numeric is
modelled as an absent box. -/
structure BBox where
  left : ℚ
  top : ℚ
  width : ℚ
  height : ℚ
deriving DecidableEq

/-- A Textract block (spec §3). -/
structure Block where
  id : String
  blockType : BlockType
  text : Option String
  confidence : Option ℚ
  page : Option Nat
  geometry : Option BBox
  relationships : List Relationship
  selected : Bool
  entityTypes : List String
  rowIndex : Option Nat
  columnIndex : Option Nat
  rowSpan : Option Nat
  columnSpan : Option Nat
deriving DecidableEq

/-- A template block: every optional field absent.  Concrete test blocks are
written as updates of this template. -/
def blk0 : Block :=
  { id := "", blockType := BlockType.PAGE, text := none, confidence := none,
    page := none, geometry := none, relationships := [], selected := false,
    entityTypes := [], rowIndex := none, columnIndex := none,
    rowSpan := none, columnSpan := none }

/-- The `blocks_map` lookup: `{block['Id']: block for block in blocks}` built by
lambda.py line 837 keeps the last block with a given id, and `.get` returns
`None` on a miss. -/
def findBlock (m : List Block) (i : String) : Option Block :=
  m.foldl (fun acc b => if b.id = i then some b else acc) none

/-- Boolean test for a CHILD relationship (for `List.filter`). -/
def isChildRel (r : Relationship) : Bool :=
  match r.relType with
  | RelType.CHILD => true
  | _ => false

/-- One child's contribution to the text resolver (lambda.py lines 69-77):
a WORD contributes its text and confidence, a SELECTION_ELEMENT contributes a
checkbox marker and its confidence, anything else (or a dangling id)
contributes nothing. -/
def wordContrib (m : List Block) (cid : String) : Option (String × ℚ) :=
  match findBlock m cid with
  | none => none
  | some cb =>
    match cb.blockType with
    | BlockType.WORD => some (cb.text.getD "", cb.confidence.getD 0)
    | BlockType.SELECTION_ELEMENT =>
        some ((if cb.selected then "[X]" else "[ ]"), cb.confidence.getD 0)
    | _ => none

/-- All `(text, confidence)` contributions of a block's CHILD relationships, in
relationship order then id order (lambda.py lines 66-77). -/
def childContribs (b : Block) (m : List Block) : List (String × ℚ) :=
  (b.relationships.filter isChildRel).flatMap fun r => r.ids.filterMap (wordContrib m)

/-- The confidences that contribute to the aggregated confidence: the child
contributions, plus the block's own confidence exactly when the fallback to
the block's own text fires (lambda.py lines 79-85). -/
def contribConfs (b : Block) (m : List Block) : List ℚ :=
  let parts := childContribs b m
  let joined := pyStrip (String.intercalate " " (parts.map Prod.fst))
  if joined = "" then
    match b.text with
    | some _ => parts.map Prod.snd ++ [b.confidence.getD 0]
    | none => parts.map Prod.snd
  else parts.map Prod.snd

/-- The text/confidence resolver `get_text_and_confidence_from_block`
(lambda.py lines 57-87). -/
def get_text_and_confidence_from_block (b : Block) (m : List Block) : String × ℚ :=
  let parts := childContribs b m
  let joined := pyStrip (String.intercalate " " (parts.map Prod.fst))
  if joined = "" then
    match b.text with
    | some t => (pyStrip t, minList (parts.map Prod.snd ++ [b.confidence.getD 0]))
    | none => ("", minList (parts.map Prod.snd))
  else (pyStrip joined, minList (parts.map Prod.snd))

/-- A word projected to its spatial data (lambda.py lines 577-590).  The
derived edges `right`, `centerX`, `centerY` are recomputed on demand; their
values coincide with the stored Python fields. -/
structure SpatialWord where
  id : String
  text : String
  confidence : ℚ
  left : ℚ
  top : ℚ
  width : ℚ
  height : ℚ
deriving DecidableEq

/-- The word's right edge (`bbox['Left'] + bbox['Width']`). -/
def SpatialWord.right (w : SpatialWord) : ℚ := w.left + w.width

/-- The word's horizontal center. -/
def SpatialWord.centerX (w : SpatialWord) : ℚ := w.left + w.width / 2

/-- The word's vertical center. -/
def SpatialWord.centerY (w : SpatialWord) : ℚ := w.top + w.height / 2

/-- A column range between two consecutive boundaries (lambda.py lines
680-686); `stop` is the Python `end` field. -/
structure ColRange where
  start : ℚ
  stop : ℚ
  center : ℚ
deriving DecidableEq

/-- A cell of the spatially reconstructed table (lambda.py lines 747-754). -/
structure SCell where
  column_index : Nat
  text : String
  confidence : ℚ
deriving DecidableEq

/-- A row of the spatially reconstructed table (lambda.py lines 745-755). -/
structure SRow where
  row_index : Nat
  cells : List SCell
deriving DecidableEq

/-- The spatially reconstructed table (lambda.py lines 705-719, without the
unread `reconstruction_metadata` diagnostics). -/
structure SpatialTable where
  table_id : String
  page_number : Option Nat
  row_count : Nat
  column_count : Nat
  rows : List SRow
deriving DecidableEq

/-- The recursive WORD collection `extract_words_from_cell` (lambda.py lines
529-543): WORD children are collected, LINE children are descended into,
everything else is ignored.  The recursion is fuelled; the top-level call
supplies fuel exceeding the block-map size, which suffices for every acyclic
graph (on a cyclic graph Python's unbounded recursion raises instead, which
the enclosing handler turns into a spatial failure). -/
def extract_words_from_cell (m : List Block) : Nat → Block → List Block
  | 0, _ => []
  | fuel + 1, cb =>
    (cb.relationships.filter isChildRel).flatMap fun r =>
      r.ids.flatMap fun cid =>
        match findBlock m cid with
        | none => []
        | some child =>
          match child.blockType with
          | BlockType.WORD => [child]
          | BlockType.LINE => extract_words_from_cell m fuel child
          | _ => []

/-- The WORD blocks of a table reachable through its CELL children
(lambda.py lines 545-558); children of other types, MERGED_CELL included,
contribute no words to the spatial pass. -/
def tableWordBlocks (m : List Block) (tb : Block) : List Block :=
  (tb.relationships.filter isChildRel).flatMap fun r =>
    r.ids.flatMap fun cid =>
      match findBlock m cid with
      | none => []
      | some cb =>
        match cb.blockType with
        | BlockType.CELL => extract_words_from_cell m (m.length + 1) cb
        | _ => []

/-- Projection of a WORD block with a valid bounding box to its spatial data
(lambda.py lines 566-591). -/
def mkSpatialWord (wb : Block) (g : BBox) : SpatialWord :=
  { id := wb.id, text := wb.text.getD "", confidence := wb.confidence.getD 0,
    left := g.left, top := g.top, width := g.width, height := g.height }

/-- Greedy single-pass row clustering (lambda.py lines 607-627): a word joins
the open row when its vertical center is within `tol` of the row's running
average vertical center, otherwise the row closes and a new one opens. -/
def clusterRows (tol : ℚ) (ws : List SpatialWord) : List (List SpatialWord) :=
  let p := ws.foldl
    (fun (acc : List (List SpatialWord) × List SpatialWord) w =>
      match acc.2 with
      | [] => (acc.1, [w])
      | cur =>
        let avg := (cur.map SpatialWord.centerY).sum / cur.length
        if |w.centerY - avg| ≤ tol then (acc.1, cur ++ [w])
        else (acc.1 ++ [cur], [w]))
    ([], [])
  match p.2 with
  | [] => p.1
  | cur => p.1 ++ [cur]

/-- One step of the in-place boundary merging (lambda.py lines 658-669): the
first accepted boundary within `tol` of `x` is replaced by their mean,
otherwise `x` is appended at the end. -/
def mergeBoundary (tol : ℚ) (bs : List ℚ) (x : ℚ) : List ℚ :=
  match bs with
  | [] => [x]
  | b :: rest =>
    if |x - b| ≤ tol then (b + x) / 2 :: rest else b :: mergeBoundary tol rest x

/-- Column ranges from consecutive boundary pairs (lambda.py lines 680-686). -/
def mkRanges : List ℚ → List ColRange
  | b1 :: b2 :: rest => ⟨b1, b2, (b1 + b2) / 2⟩ :: mkRanges (b2 :: rest)
  | _ => []

/-- The containment scan of `get_column_index` (lambda.py lines 690-693):
index of the first range whose `[start, end]` holds `c`. -/
def findContaining (c : ℚ) : List ColRange → Nat → Option Nat
  | [], _ => none
  | r :: rest, i =>
    if r.start ≤ c ∧ c ≤ r.stop then some i else findContaining c rest (i + 1)

/-- The closest-range scan of `get_column_index` (lambda.py lines 695-702):
running over the ranges with their index, keep the first index whose nearer
edge strictly improves the best distance so far (`none` is the initial
`float('inf')`). -/
def closestAux (c : ℚ) : List ColRange → Nat → Nat → Option ℚ → Nat
  | [], _, best, _ => best
  | r :: rest, i, best, bd =>
    let d := min |c - r.start| |c - r.stop|
    match bd with
    | none => closestAux c rest (i + 1) i (some d)
    | some mdist =>
      if d < mdist then closestAux c rest (i + 1) i (some d)
      else closestAux c rest (i + 1) best (some mdist)

/-- Index of the range whose nearer edge is closest to `c`. -/
def closestRange (ranges : List ColRange) (c : ℚ) : Nat := closestAux c ranges 0 0 none

/-- `get_column_index` (lambda.py lines 689-702): first containing range,
else closest range. -/
def get_column_index (ranges : List ColRange) (w : SpatialWord) : Nat :=
  match findContaining w.centerX ranges 0 with
  | some i => i
  | none => closestRange ranges w.centerX

/-- Group a row's words by their assigned column index, in dictionary
insertion order (lambda.py lines 727-732). -/
def groupByColumn (ranges : List ColRange) (rowWords : List SpatialWord) :
    List (Nat × List SpatialWord) :=
  rowWords.foldl (fun g w => addToGroup g (get_column_index ranges w) w) []

/-- One column group's write into the row cells (lambda.py lines 734-743):
groups within bounds write the left-to-right joined text and the rounded mean
confidence at their column, out-of-bounds groups are dropped. -/
def rowCellStep (acc : List String × List ℚ) (g : Nat × List SpatialWord) :
    List String × List ℚ :=
  if g.1 < acc.1.length then
    let ws := sortLE (fun a b => a.left ≤ b.left) g.2
    let combined := pyStrip (String.intercalate " " (ws.map SpatialWord.text))
    let avgc := (ws.map SpatialWord.confidence).sum / ws.length
    (acc.1.set g.1 combined, acc.2.set g.1 (round2 avgc))
  else acc

/-- Fill the per-row cell texts and confidences (lambda.py lines 722-743):
start from empty texts and zero confidences and apply every column group. -/
def buildRowCells (ranges : List ColRange) (rowWords : List SpatialWord) :
    List String × List ℚ :=
  (groupByColumn ranges rowWords).foldl rowCellStep
    (List.replicate ranges.length "", List.replicate ranges.length (0 : ℚ))

/-- Assemble one output row (lambda.py lines 745-755). -/
def mkSRow (ranges : List ColRange) (idx : Nat) (rowWords : List SpatialWord) : SRow :=
  let rc := buildRowCells ranges rowWords
  { row_index := idx + 1,
    cells := rc.1.enum.map fun p => ⟨p.1 + 1, p.2, rc.2.getD p.1 0⟩ }

/-- The spatial reconstructor `reconstruct_table_structure_spatially`
(lambda.py lines 516-763).  `none` is the Python `None` failure result; the
enclosing `try/except` that also maps unexpected exceptions to `None` is
modelled at the call sites by an exception oracle. -/
def reconstruct_table_structure_spatially (tb : Block) (m : List Block) :
    Option SpatialTable :=
  let word_blocks := tableWordBlocks m tb
  match word_blocks with
  | [] => none
  | _ =>
    let spatial_words := word_blocks.filterMap fun wb => (wb.geometry).map (mkSpatialWord wb)
    match spatial_words with
    | [] => none
    | _ =>
      let sorted := sortLE (fun a b => a.top ≤ b.top) spatial_words
      let avgH := (sorted.map SpatialWord.height).sum / sorted.length
      let rowTol := max (1 / 200) (min (1 / 50) (avgH * (1 / 2)))
      let rows0 := clusterRows rowTol sorted
      if rows0.length < 1 then none
      else
        let rows := rows0.map (sortLE (fun a b => a.left ≤ b.left))
        let allX := rows.flatMap fun row => row.flatMap fun w => [w.left, w.right]
        let uniq := sortedDedup allX
        let docWidth := match uniq with
          | [] => 1
          | x :: _ => uniq.getLastD 0 - x
        let bTol := max (1 / 100) (min (3 / 100) (docWidth * (2 / 100)))
        let bounds := sortLE (fun a b => a ≤ b) (uniq.foldl (mergeBoundary bTol) [])
        if bounds.length < 2 then none
        else
          let ranges := mkRanges bounds
          some
            { table_id := tb.id, page_number := tb.page,
              row_count := rows.length, column_count := ranges.length,
              rows := rows.enum.map fun p => mkSRow ranges p.1 p.2 }

/-- Boolean block-type tests for `List.filter`. -/
def isTableB (b : Block) : Bool :=
  match b.blockType with
  | BlockType.TABLE => true
  | _ => false

/-- Boolean test for a LINE block. -/
def isLineB (b : Block) : Bool :=
  match b.blockType with
  | BlockType.LINE => true
  | _ => false

/-- Boolean test for a PAGE block. -/
def isPageB (b : Block) : Bool :=
  match b.blockType with
  | BlockType.PAGE => true
  | _ => false

/-- Boolean test for a KEY_VALUE_SET block. -/
def isKVSetB (b : Block) : Bool :=
  match b.blockType with
  | BlockType.KEY_VALUE_SET => true
  | _ => false

/-- The TABLE blocks of the document, in document order. -/
def tablesOf (blocks : List Block) : List Block := blocks.filter isTableB

/-- The LINE blocks of the document, in document order. -/
def linesOf (blocks : List Block) : List Block := blocks.filter isLineB

/-- The CELL children of a table for the structural builders, with MERGED_CELL
children unwrapped one level into their constituent CELL blocks (lambda.py
lines 131-146, and identically lines 261-276). -/
def collectCellsWithMerged (m : List Block) (tb : Block) : List Block :=
  (tb.relationships.filter isChildRel).flatMap fun r =>
    r.ids.flatMap fun gid =>
      match findBlock m gid with
      | none => []
      | some gb =>
        match gb.blockType with
        | BlockType.CELL => [gb]
        | BlockType.MERGED_CELL =>
          (gb.relationships.filter isChildRel).flatMap fun mr =>
            mr.ids.flatMap fun mid =>
              match findBlock m mid with
              | none => []
              | some mc =>
                match mc.blockType with
                | BlockType.CELL => [mc]
                | _ => []
        | _ => []

/-- Accumulator of the structural CSV grid builder (lambda.py lines 128-169):
the `(row, col) → text` map, whether anything was ever written (the truth
value of `table_cells_map` at line 171), and the maxima reached. -/
structure CsvAcc where
  cmap : Nat × Nat → Option String
  wrote : Bool
  maxR : Nat
  maxC : Nat

/-- The `(r_offset, c_offset)` pairs of a cell's span, in the nested loop
order of lambda.py lines 160-161. -/
def spanOffsets (rs cs : Nat) : List (Nat × Nat) :=
  (List.range rs).flatMap fun ro => (List.range cs).map fun co => (ro, co)

/-- Write one cell's span into the grid map (lambda.py lines 160-166): the
top-left offset receives the resolved text, every other covered position
receives its current value defaulted to the empty string. -/
def writeCellSpan (ri ci : Nat) (t : String) (offs : List (Nat × Nat))
    (mp : Nat × Nat → Option String) : Nat × Nat → Option String :=
  offs.foldl
    (fun mp' rc =>
      let pos := (ri + rc.1, ci + rc.2)
      fun p =>
        if p = pos then
          if rc.1 = 0 ∧ rc.2 = 0 then some t else some ((mp' pos).getD "")
        else mp' p)
    mp

/-- Process one cell of the structural CSV builder (lambda.py lines 152-169).
The direct accesses `cell_block['RowIndex']` / `['ColumnIndex']` raise on a
missing key; no handler around this loop catches the raise. -/
def processCellCsv (m : List Block) (acc : CsvAcc) (cb : Block) : Except Unit CsvAcc :=
  match cb.rowIndex, cb.columnIndex with
  | some ri, some ci =>
    let rs := cb.rowSpan.getD 1
    let cs := cb.columnSpan.getD 1
    let t := (get_text_and_confidence_from_block cb m).1
    .ok { cmap := writeCellSpan ri ci t (spanOffsets rs cs) acc.cmap,
          wrote := acc.wrote || (decide (0 < rs) && decide (0 < cs)),
          maxR := max acc.maxR (ri + rs - 1),
          maxC := max acc.maxC (ci + cs - 1) }
  | _, _ => .error ()

/-- Fold the cells of one table through the structural CSV builder. -/
def buildCsvAcc (m : List Block) (cells : List Block) : Except Unit CsvAcc :=
  cells.foldlM (processCellCsv m) ⟨fun _ => none, false, 0, 0⟩

/-- Emit the finished structural grid (lambda.py lines 175-178): rows `1` to
`maxR`, columns `1` to `maxC`, untouched positions defaulting to `""`. -/
def gridOf (acc : CsvAcc) : List (List String) :=
  (List.range acc.maxR).map fun r =>
    (List.range acc.maxC).map fun c => (acc.cmap (r + 1, c + 1)).getD ""

/-- The structural CSV rows of one table with a nonempty cell list
(lambda.py lines 152-180, with the `if not table_cells_map: continue` skip). -/
def structuralCsvRows (m : List Block) (cells : List Block) :
    Except Unit (List (List String)) := do
  let acc ← buildCsvAcc m cells
  if acc.wrote then .ok (gridOf acc) else .ok []

/-- The rows one table contributes to the CSV, not counting the separator
(lambda.py lines 111-180): the spatial grid when the spatial pass yields one,
else the structural grid, else nothing (the table is skipped). -/
def csvTableBody (spa : Option SpatialTable) (m : List Block) (tb : Block) :
    Except Unit (List (List String)) :=
  match spa with
  | some st => .ok (st.rows.map fun r => r.cells.map SCell.text)
  | none =>
    match collectCellsWithMerged m tb with
    | [] => .ok []
    | cells => structuralCsvRows m cells

/-- The page label of a table (`table.get('Page', 'Unknown')`, line 106). -/
def pageStr (tb : Block) : String :=
  match tb.page with
  | some p => toString p
  | none => "Unknown"

/-- The one-cell label row inserted before a table when rows have already
been emitted (lambda.py line 109). -/
def labelRow (tn : Nat) (tb : Block) : List String :=
  ["--- Table " ++ toString (tn + 1) ++ " (Page " ++ pageStr tb ++ ") ---"]

/-- The per-table loop of `parse_tables_to_csv_data` (lambda.py lines
105-181), with the accumulated rows threaded as in the source: the separator
pair is appended exactly when rows have accumulated, then the table's body.
`exc tn = true` injects an unexpected exception into table `tn`'s spatial
pass, which its `try/except` converts to the `None` failure result. -/
def csvLoop (exc : Nat → Bool) (m : List Block) :
    Nat → List (List String) → List Block → Except Unit (List (List String))
  | _, acc, [] => .ok acc
  | tn, acc, tb :: rest =>
    match csvTableBody (if exc tn then none else
        reconstruct_table_structure_spatially tb m) m tb with
    | .error e => .error e
    | .ok body =>
      csvLoop exc m (tn + 1)
        ((if acc = [] then acc else acc ++ [[], labelRow tn tb]) ++ body) rest

/-- `parse_tables_to_csv_data` (lambda.py lines 89-183): with no tables, dump
the LINE blocks behind a header row (nothing at all when there are also no
lines); otherwise run the per-table loop. -/
def parse_tables_to_csv_data (exc : Nat → Bool) (blocks m : List Block) :
    Except Unit (List (List String)) :=
  match tablesOf blocks with
  | [] =>
    match linesOf blocks with
    | [] => .ok []
    | lines =>
      .ok (["Detected Lines (No Table Structure Found)"] ::
        lines.map fun lb => [(get_text_and_confidence_from_block lb m).1])
  | tables => csvLoop exc m 0 [] tables

/-- The oracle of a run in which no table's spatial pass raises. -/
def noExc : Nat → Bool := fun _ => false

/-- A cell record of the structured output (lambda.py lines 230-240 for the
spatial path, 287-297 for the structural path). -/
structure CellData where
  cellId : String
  cellRowIndex : Nat
  cellColumnIndex : Nat
  cellRowSpan : Nat
  cellColumnSpan : Nat
  text : String
  confidence : Option ℚ
  geometry : Option BBox
  spatiallyReconstructed : Bool
deriving DecidableEq

/-- A row record of the structured output. -/
structure RowData where
  rowIndex : Nat
  cells : List CellData
deriving DecidableEq

/-- A table record of the structured output (lambda.py lines 212-220 and
251-259). -/
structure TableData where
  tableId : String
  pageNumber : Option Nat
  confidence : Option ℚ
  rowCount : Nat
  columnCount : Nat
  spatiallyReconstructed : Bool
  rows : List RowData
deriving DecidableEq

/-- A key/value pair record (lambda.py lines 350-357). -/
structure KVPair where
  key : String
  keyConfidence : ℚ
  value : String
  valueConfidence : ℚ
  keyGeometry : Option BBox
  pageNumber : Option Nat
deriving DecidableEq

/-- A raw line record (lambda.py lines 363-369). -/
structure RawLine where
  lineId : String
  text : String
  confidence : ℚ
  geometry : Option BBox
  pageNumber : Option Nat
deriving DecidableEq

/-- The structured record (lambda.py lines 190-197). -/
structure SRecord where
  originalS3Key : String
  processingJobId : String
  pageCount : Nat
  tables : List TableData
  keyValuePairs : List KVPair
  rawLines : List RawLine
deriving DecidableEq

/-- Conversion of a spatial table into the structured-record format
(lambda.py lines 209-246): synthetic cell identifiers, unit spans, null
geometry. -/
def spatialTableToTableData (tb : Block) (st : SpatialTable) : TableData :=
  { tableId := tb.id, pageNumber := tb.page, confidence := tb.confidence,
    rowCount := st.row_count, columnCount := st.column_count,
    spatiallyReconstructed := true,
    rows := st.rows.map fun sr =>
      { rowIndex := sr.row_index,
        cells := sr.cells.map fun c =>
          { cellId := "spatial_" ++ tb.id ++ "_" ++ toString sr.row_index ++
              "_" ++ toString c.column_index,
            cellRowIndex := sr.row_index, cellColumnIndex := c.column_index,
            cellRowSpan := 1, cellColumnSpan := 1,
            text := c.text, confidence := some c.confidence,
            geometry := none, spatiallyReconstructed := true } } }

/-- Insert-or-overwrite into the `(row, col) → cell` dictionary
`parsed_cells_map` (lambda.py line 298): an existing key keeps its position
and takes the new value, a new key goes to the end. -/
def upsert (k : Nat × Nat) (v : CellData) :
    List ((Nat × Nat) × CellData) → List ((Nat × Nat) × CellData)
  | [] => [(k, v)]
  | (k', v') :: rest =>
    if k' = k then (k, v) :: rest else (k', v') :: upsert k v rest

/-- Lexicographic order on `(row, col)` keys, the order of Python's
`sorted(parsed_cells_map.items())` (lambda.py line 306). -/
def lexLE (p q : Nat × Nat) : Bool :=
  decide (p.1 < q.1) || (decide (p.1 = q.1) && decide (p.2 ≤ q.2))

/-- Process one cell of the structural JSON builder (lambda.py lines
285-300); the index accesses are the same uncaught raises as in the CSV
builder. -/
def processCellJson (m : List Block) (acc : List ((Nat × Nat) × CellData) × Nat × Nat)
    (cb : Block) : Except Unit (List ((Nat × Nat) × CellData) × Nat × Nat) :=
  match cb.rowIndex, cb.columnIndex with
  | some ri, some ci =>
    let rs := cb.rowSpan.getD 1
    let cs := cb.columnSpan.getD 1
    let tc := get_text_and_confidence_from_block cb m
    let info : CellData :=
      { cellId := cb.id, cellRowIndex := ri, cellColumnIndex := ci,
        cellRowSpan := rs, cellColumnSpan := cs, text := tc.1,
        confidence := some (round2 tc.2), geometry := cb.geometry,
        spatiallyReconstructed := false }
    .ok (upsert (ri, ci) info acc.1, max acc.2.1 (ri + rs - 1), max acc.2.2 (ci + cs - 1))
  | _, _ => .error ()

/-- Group the lex-sorted cell entries by row index, in insertion order
(lambda.py lines 305-309). -/
def groupCellsByRow (entries : List ((Nat × Nat) × CellData)) : List (Nat × List CellData) :=
  entries.foldl (fun g e => addToGroup g e.1.1 e.2) []

/-- Build the structural table record of the structured output for a table
with a nonempty cell list (lambda.py lines 251-318). -/
def structuralTableDataCore (m : List Block) (tb : Block) (cells : List Block) :
    Except Unit TableData := do
  let acc ← cells.foldlM (processCellJson m) ([], 0, 0)
  let entries := sortLE (fun a b => lexLE a.1 b.1) acc.1
  let groups := groupCellsByRow entries
  let rows := (sortLE (fun a b => decide (a ≤ b)) (groups.map Prod.fst)).map fun r =>
    { rowIndex := r,
      cells := sortLE (fun a b => a.cellColumnIndex ≤ b.cellColumnIndex)
        (((groups.find? fun g => g.1 = r).map Prod.snd).getD []) }
  .ok { tableId := tb.id, pageNumber := tb.page, confidence := tb.confidence,
        rowCount := acc.2.1, columnCount := acc.2.2,
        spatiallyReconstructed := false, rows := rows }

/-- The structural fallback of the structured-record assembler: `none` is the
"no cell blocks, skip" outcome (lambda.py lines 278-280). -/
def structuralTableData (m : List Block) (tb : Block) : Except Unit (Option TableData) :=
  match collectCellsWithMerged m tb with
  | [] => .ok none
  | cells => (structuralTableDataCore m tb cells).map some

/-- The table record produced for one TABLE block (lambda.py lines 205-318):
the spatial reconstruction when it succeeds, else the structural fallback. -/
def tableDataFor (m : List Block) (tb : Block) : Except Unit (Option TableData) :=
  match reconstruct_table_structure_spatially tb m with
  | some st => .ok (some (spatialTableToTableData tb st))
  | none => structuralTableData m tb

/-- Boolean test for a VALUE relationship. -/
def isValueRel (r : Relationship) : Bool :=
  match r.relType with
  | RelType.VALUE => true
  | _ => false

/-- The value text and confidence of a key block (lambda.py lines 337-348):
only the first VALUE relationship is consulted (the `break`), each referenced
block's resolved text is appended with a trailing space, and the confidence
is the running maximum starting from `0.0`. -/
def valueTextConf (m : List Block) (kb : Block) : String × ℚ :=
  match kb.relationships.find? isValueRel with
  | none => ("", 0)
  | some rel =>
    rel.ids.foldl
      (fun acc vid =>
        match findBlock m vid with
        | none => acc
        | some vb =>
          let tc := get_text_and_confidence_from_block vb m
          (acc.1 ++ tc.1 ++ " ", max acc.2 tc.2))
      ("", 0)

/-- The key/value pair built for one KEY-tagged block (lambda.py lines
335-357). -/
def keyValueFor (m : List Block) (kb : Block) : KVPair :=
  let ktc := get_text_and_confidence_from_block kb m
  let vtc := valueTextConf m kb
  { key := pyStrip ktc.1, keyConfidence := round2 ktc.2,
    value := pyStrip vtc.1, valueConfidence := round2 vtc.2,
    keyGeometry := kb.geometry, pageNumber := kb.page }

/-- The key/value extractor (lambda.py lines 331-357): one pair per
KEY-tagged KEY_VALUE_SET block, in document order. -/
def extractKeyValuePairs (blocks m : List Block) : List KVPair :=
  (((blocks.filter isKVSetB).filter fun kv => kv.entityTypes.contains "KEY").map
    (keyValueFor m))

/-- The raw line record of one LINE block (lambda.py lines 361-369). -/
def rawLineFor (m : List Block) (lb : Block) : RawLine :=
  let tc := get_text_and_confidence_from_block lb m
  { lineId := lb.id, text := tc.1, confidence := round2 tc.2,
    geometry := lb.geometry, pageNumber := lb.page }

/-- One step of the per-table loop of the structured-record assembler: a
reconstructed table is appended, a skipped one contributes nothing, an
uncaught exception propagates. -/
def tablesStep (m : List Block) (acc : List TableData) (tb : Block) :
    Except Unit (List TableData) :=
  match tableDataFor m tb with
  | .error e => .error e
  | .ok (some td) => .ok (acc ++ [td])
  | .ok none => .ok acc

/-- `parse_blocks_to_structured_json` (lambda.py lines 185-371), with the
OpenAI restructuring step disabled (no API key configured). -/
def parse_blocks_to_structured_json (blocks m : List Block) (origKey jobId : String) :
    Except Unit SRecord :=
  match (tablesOf blocks).foldlM (tablesStep m) [] with
  | .error e => .error e
  | .ok tds =>
    .ok { originalS3Key := origKey, processingJobId := jobId,
          pageCount := (blocks.filter isPageB).length,
          tables := tds,
          keyValuePairs := extractKeyValuePairs blocks m,
          rawLines := (linesOf blocks).map (rawLineFor m) }

/-- A JSON value, used to render the structured record with the exact string
field names the Python dictionaries carry. -/
inductive JsonVal
  | str (s : String)
  | num (q : ℚ)
  | bool (b : Bool)
  | null
  | arr (xs : List JsonVal)
  | obj (fs : List (String × JsonVal))

/-- The field names of a JSON object (empty for non-objects). -/
def objKeys : JsonVal → List String
  | JsonVal.obj fs => fs.map Prod.fst
  | _ => []

/-- Render an optional number. -/
def optNum (o : Option ℚ) : JsonVal :=
  match o with
  | some q => JsonVal.num q
  | none => JsonVal.null

/-- Render an optional page number. -/
def optNat (o : Option Nat) : JsonVal :=
  match o with
  | some n => JsonVal.num n
  | none => JsonVal.null

/-- Render an optional geometry, passed through verbatim. -/
def optGeom (o : Option BBox) : JsonVal :=
  match o with
  | some g => JsonVal.obj [("BoundingBox", JsonVal.obj
      [("Left", JsonVal.num g.left), ("Top", JsonVal.num g.top),
       ("Width", JsonVal.num g.width), ("Height", JsonVal.num g.height)])]
  | none => JsonVal.null

/-- Render a cell record with its Python dictionary keys. -/
def CellData.toJson (c : CellData) : JsonVal :=
  JsonVal.obj
    [("cellId", JsonVal.str c.cellId),
     ("rowIndex", JsonVal.num c.cellRowIndex),
     ("columnIndex", JsonVal.num c.cellColumnIndex),
     ("rowSpan", JsonVal.num c.cellRowSpan),
     ("columnSpan", JsonVal.num c.cellColumnSpan),
     ("text", JsonVal.str c.text),
     ("confidence", optNum c.confidence),
     ("geometry", optGeom c.geometry),
     ("spatiallyReconstructed", JsonVal.bool c.spatiallyReconstructed)]

/-- Render a row record with its Python dictionary keys. -/
def RowData.toJson (r : RowData) : JsonVal :=
  JsonVal.obj
    [("rowIndex", JsonVal.num r.rowIndex),
     ("cells", JsonVal.arr (r.cells.map CellData.toJson))]

/-- Render a table record with its Python dictionary keys. -/
def TableData.toJson (t : TableData) : JsonVal :=
  JsonVal.obj
    [("tableId", JsonVal.str t.tableId),
     ("pageNumber", optNat t.pageNumber),
     ("confidence", optNum t.confidence),
     ("rowCount", JsonVal.num t.rowCount),
     ("columnCount", JsonVal.num t.columnCount),
     ("spatiallyReconstructed", JsonVal.bool t.spatiallyReconstructed),
     ("rows", JsonVal.arr (t.rows.map RowData.toJson))]

/-- Render a key/value pair with its Python dictionary keys. -/
def KVPair.toJson (p : KVPair) : JsonVal :=
  JsonVal.obj
    [("key", JsonVal.str p.key),
     ("keyConfidence", JsonVal.num p.keyConfidence),
     ("value", JsonVal.str p.value),
     ("valueConfidence", JsonVal.num p.valueConfidence),
     ("keyGeometry", optGeom p.keyGeometry),
     ("pageNumber", optNat p.pageNumber)]

/-- Render a raw line with its Python dictionary keys. -/
def RawLine.toJson (l : RawLine) : JsonVal :=
  JsonVal.obj
    [("lineId", JsonVal.str l.lineId),
     ("text", JsonVal.str l.text),
     ("confidence", JsonVal.num l.confidence),
     ("geometry", optGeom l.geometry),
     ("pageNumber", optNat l.pageNumber)]

/-- Render the structured record with the exact top-level field names of
lambda.py lines 190-200. -/
def SRecord.toJson (r : SRecord) : JsonVal :=
  JsonVal.obj
    [("originalS3Key", JsonVal.str r.originalS3Key),
     ("processingJobId", JsonVal.str r.processingJobId),
     ("documentMetadata", JsonVal.obj [("pageCount", JsonVal.num r.pageCount)]),
     ("tables", JsonVal.arr (r.tables.map TableData.toJson)),
     ("keyValuePairs", JsonVal.arr (r.keyValuePairs.map KVPair.toJson)),
     ("rawLines", JsonVal.arr (r.rawLines.map RawLine.toJson))]

/-- The per-table CSV loop in accumulator-free form: each table contributes
its separator (exactly when a previous table already contributed rows) and
its body, independently of the other tables.  `csvLoop` is proved equal to
this form below; the equality is what makes the per-table isolation of the
assembler explicit. -/
def csvGo (exc : Nat → Bool) (m : List Block) :
    Nat → Bool → List Block → Except Unit (List (List String))
  | _, _, [] => .ok []
  | tn, before, tb :: rest =>
    match csvTableBody (if exc tn then none else
        reconstruct_table_structure_spatially tb m) m tb with
    | .error e => .error e
    | .ok body =>
      match csvGo exc m (tn + 1) (before || !body.isEmpty) rest with
      | .error e => .error e
      | .ok tail => .ok ((if before then [[], labelRow tn tb] else []) ++ body ++ tail)

/-- A rational is a value with (at most) two decimal places. -/
def rounded2 (q : ℚ) : Prop := (q * 100).den = 1

instance (q : ℚ) : Decidable (rounded2 q) := by
  unfold rounded2
  infer_instance

/-- The top-left grid position of a cell block (1-based `RowIndex`,
`ColumnIndex`). -/
def cellTL (cb : Block) : Nat × Nat :=
  (cb.rowIndex.getD 0, cb.columnIndex.getD 0)

/-- The grid positions covered by a cell block's declared span. -/
def cellCovers (cb : Block) (p : Nat × Nat) : Prop :=
  cb.rowIndex.getD 0 ≤ p.1 ∧ p.1 < cb.rowIndex.getD 0 + cb.rowSpan.getD 1 ∧
  cb.columnIndex.getD 0 ≤ p.2 ∧ p.2 < cb.columnIndex.getD 0 + cb.columnSpan.getD 1

instance (cb : Block) (p : Nat × Nat) : Decidable (cellCovers cb p) := by
  unfold cellCovers
  infer_instance

/-- Disjointness of two cells' covered rectangles: their row intervals or
their column intervals do not meet. -/
def cellsDisjoint (a b : Block) : Prop :=
  a.rowIndex.getD 0 + a.rowSpan.getD 1 ≤ b.rowIndex.getD 0 ∨
  b.rowIndex.getD 0 + b.rowSpan.getD 1 ≤ a.rowIndex.getD 0 ∨
  a.columnIndex.getD 0 + a.columnSpan.getD 1 ≤ b.columnIndex.getD 0 ∨
  b.columnIndex.getD 0 + b.columnSpan.getD 1 ≤ a.columnIndex.getD 0

instance (a b : Block) : Decidable (cellsDisjoint a b) := by
  unfold cellsDisjoint
  infer_instance

/-- One step of the structural CSV builder on a cell whose indices are
present; under the presence hypothesis it agrees with `processCellCsv`. -/
def processCellCsvOk (m : List Block) (acc : CsvAcc) (cb : Block) : CsvAcc :=
  let ri := cb.rowIndex.getD 0
  let ci := cb.columnIndex.getD 0
  let rs := cb.rowSpan.getD 1
  let cs := cb.columnSpan.getD 1
  let t := (get_text_and_confidence_from_block cb m).1
  { cmap := writeCellSpan ri ci t (spanOffsets rs cs) acc.cmap,
    wrote := acc.wrote || (decide (0 < rs) && decide (0 < cs)),
    maxR := max acc.maxR (ri + rs - 1),
    maxC := max acc.maxC (ci + cs - 1) }

/-- The pure run of the structural CSV builder. -/
def buildCsvAccOk (m : List Block) (cells : List Block) : CsvAcc :=
  cells.foldl (processCellCsvOk m) ⟨fun _ => none, false, 0, 0⟩

/-- The maximum row reached by the declared spans (lambda.py line 168). -/
def spanMaxR (cells : List Block) : Nat :=
  cells.foldl (fun a cb => max a (cb.rowIndex.getD 0 + cb.rowSpan.getD 1 - 1)) 0

/-- The maximum column reached by the declared spans (lambda.py line 169). -/
def spanMaxC (cells : List Block) : Nat :=
  cells.foldl (fun a cb => max a (cb.columnIndex.getD 0 + cb.columnSpan.getD 1 - 1)) 0

/-- Concrete word block `A` of scenario C, top-left of a clean 2×2 word grid. -/
def wA : Block := { blk0 with
  id := "wA", blockType := BlockType.WORD, text := some "A",
  confidence := some 99, geometry := some ⟨1/10, 1/10, 1/10, 1/100⟩ }

/-- Concrete word block `B` of scenario C, top-right. -/
def wB : Block := { blk0 with
  id := "wB", blockType := BlockType.WORD, text := some "B",
  confidence := some 99, geometry := some ⟨6/10, 1/10, 1/10, 1/100⟩ }

/-- Concrete word block `C` of scenario C, bottom-left. -/
def wC : Block := { blk0 with
  id := "wC", blockType := BlockType.WORD, text := some "C",
  confidence := some 99, geometry := some ⟨1/10, 5/10, 1/10, 1/100⟩ }

/-- Concrete word block `D` of scenario C, bottom-right. -/
def wD : Block := { blk0 with
  id := "wD", blockType := BlockType.WORD, text := some "D",
  confidence := some 99, geometry := some ⟨6/10, 5/10, 1/10, 1/100⟩ }

/-- The one CELL child of the scenario-C table, holding all four words. -/
def cellC1 : Block := { blk0 with
  id := "c1", blockType := BlockType.CELL,
  relationships := [⟨RelType.CHILD, ["wA", "wB", "wC", "wD"]⟩],
  rowIndex := some 1, columnIndex := some 1 }

/-- The scenario-C table: its four words (reached through its CELL child)
form a visually clean 2×2 grid, rows 0.4 apart against a row tolerance of
0.005, facing column edges 0.4 apart against a boundary tolerance of 0.012. -/
def tabC : Block := { blk0 with
  id := "T", blockType := BlockType.TABLE, page := some 1,
  relationships := [⟨RelType.CHILD, ["c1"]⟩] }

/-- The scenario-C document. -/
def blocksC : List Block := [tabC, cellC1, wA, wB, wC, wD]

/-- A table carrying the same four clean-grid words directly as CHILD
relationships, with no CELL blocks at all. -/
def tabBad : Block := { blk0 with
  id := "TB", blockType := BlockType.TABLE, page := some 1,
  relationships := [⟨RelType.CHILD, ["wA", "wB", "wC", "wD"]⟩] }

/-- The document of `tabBad`. -/
def blocksBad : List Block := [tabBad, wA, wB, wC, wD]

/-- Cell (1,1) of the ragged-row example; no children and no own text. -/
def c11 : Block := { blk0 with
  id := "c11", blockType := BlockType.CELL, rowIndex := some 1, columnIndex := some 1 }

/-- Cell (2,1) of the ragged-row example. -/
def c21 : Block := { blk0 with
  id := "c21", blockType := BlockType.CELL, rowIndex := some 2, columnIndex := some 1 }

/-- Cell (2,2) of the ragged-row example. -/
def c22 : Block := { blk0 with
  id := "c22", blockType := BlockType.CELL, rowIndex := some 2, columnIndex := some 2 }

/-- A table whose structural layout has one cell in row 1 and two in row 2;
its spatial pass fails (no words), so the structured record takes the
structural path. -/
def tab4 : Block := { blk0 with
  id := "t4", blockType := BlockType.TABLE, page := some 1,
  relationships := [⟨RelType.CHILD, ["c11", "c21", "c22"]⟩] }

/-- The ragged-row document. -/
def blocks4 : List Block := [tab4, c11, c21, c22]

/-- A CELL block with no `RowIndex`/`ColumnIndex`: resolving it in the
structural builder raises an uncaught `KeyError`. -/
def c5bad : Block := { blk0 with id := "c5bad", blockType := BlockType.CELL }

/-- A table whose spatial pass fails and whose structural pass raises. -/
def t5a : Block := { blk0 with
  id := "t5a", blockType := BlockType.TABLE, page := some 1,
  relationships := [⟨RelType.CHILD, ["c5bad"]⟩] }

/-- A healthy cell for the second table of the abort example. -/
def c5ok : Block := { blk0 with
  id := "c5ok", blockType := BlockType.CELL, text := some "X", confidence := some 90,
  rowIndex := some 1, columnIndex := some 1 }

/-- A healthy second table that the abort prevents from being processed. -/
def t5b : Block := { blk0 with
  id := "t5b", blockType := BlockType.TABLE, page := some 2,
  relationships := [⟨RelType.CHILD, ["c5ok"]⟩] }

/-- The abort-example document: a faulty first table followed by a healthy
second one. -/
def blocks5 : List Block := [t5a, t5b, c5bad, c5ok]

/-- The one cell of the unrounded-confidence example. -/
def c9cell : Block := { blk0 with
  id := "c9", blockType := BlockType.CELL, text := some "X", confidence := some 97,
  rowIndex := some 1, columnIndex := some 1 }

/-- A table block whose own confidence 99.125 has more than two decimals. -/
def tab9 : Block := { blk0 with
  id := "t9", blockType := BlockType.TABLE, page := some 1, confidence := some (793/8),
  relationships := [⟨RelType.CHILD, ["c9"]⟩] }

/-- The unrounded-confidence document. -/
def blocks9 : List Block := [tab9, c9cell]

/-- The scenario-B key block: text `Date`, confidence 98, one VALUE
relationship. -/
def kb7 : Block := { blk0 with
  id := "k1", blockType := BlockType.KEY_VALUE_SET, entityTypes := ["KEY"],
  text := some "Date", confidence := some 98, page := some 1,
  relationships := [⟨RelType.VALUE, ["v1"]⟩] }

/-- The scenario-B value block: resolves to `01/01/2024` with confidence 95. -/
def vb7 : Block := { blk0 with
  id := "v1", blockType := BlockType.KEY_VALUE_SET, entityTypes := ["VALUE"],
  text := some "01/01/2024", confidence := some 95 }

/-- The scenario-B document. -/
def blocks7 : List Block := [kb7, vb7]

/-- A KEY-tagged block with no VALUE relationship at all. -/
def kb6 : Block := { blk0 with
  id := "k6", blockType := BlockType.KEY_VALUE_SET, entityTypes := ["KEY"],
  text := some "Name", confidence := some 90 }

/-- The document of `kb6`. -/
def blocks6 : List Block := [kb6]

/-- Witness cell `(1,1)` with a 2×1 span for the structural-builder theorem. -/
def cw1 : Block := { blk0 with
  id := "cw1", blockType := BlockType.CELL, text := some "A", confidence := some 90,
  rowIndex := some 1, columnIndex := some 1, rowSpan := some 2, columnSpan := some 1 }

/-- Witness cell `(1,2)` with a unit span. -/
def cw2 : Block := { blk0 with
  id := "cw2", blockType := BlockType.CELL, text := some "B", confidence := some 80,
  rowIndex := some 1, columnIndex := some 2 }

/-- The witness cell list for the structural-builder theorem. -/
def cellsW : List Block := [cw1, cw2]

/-- Witness WORD children for the resolver theorem. -/
def w3a : Block := { blk0 with
  id := "w3a", blockType := BlockType.WORD, text := some "hello", confidence := some 80 }

/-- Second witness WORD child. -/
def w3b : Block := { blk0 with
  id := "w3b", blockType := BlockType.WORD, text := some "world", confidence := some 90 }

/-- A block with two WORD children for the resolver witness. -/
def b3 : Block := { blk0 with
  id := "b3", blockType := BlockType.LINE,
  relationships := [⟨RelType.CHILD, ["w3a", "w3b"]⟩] }

/-- The resolver-witness document. -/
def blocks3 : List Block := [b3, w3a, w3b]

/-- Concrete column ranges (those of the scenario-C table) for the
column-assignment witness. -/
def rangesW : List ColRange := mkRanges [1/10, 2/10, 6/10, 7/10]

/-- A concrete LINE block for the no-tables CSV fallback witness. -/
def lineW : Block := { blk0 with
  id := "l1", blockType := BlockType.LINE, text := some "hello", confidence := some 88 }

/-- A document with one LINE block and no tables. -/
def blocksL : List Block := [lineW]

/-- A TABLE block with no children at all: its spatial pass fails and its
structural pass finds no cells, so the table is skipped. -/
def tabEmpty : Block := { blk0 with id := "TE", blockType := BlockType.TABLE }

/-- The document of the skipped table. -/
def blocksE : List Block := [tabEmpty]

deriving instance DecidableEq for Except

theorem foldl_min_le_init (cs : List ℚ) (c : ℚ) : cs.foldl min c ≤ c := by
  induction cs generalizing c with
  | nil => exact le_refl c
  | cons c' cs ih => exact le_trans (ih (min c c')) (min_le_left c c')

theorem foldl_min_le_mem (cs : List ℚ) (c x : ℚ) (h : x ∈ cs) : cs.foldl min c ≤ x := by
  induction cs generalizing c with
  | nil => cases h
  | cons c' cs ih =>
    rcases List.mem_cons.mp h with h1 | h2
    · subst h1
      exact le_trans (foldl_min_le_init cs (min c x)) (min_le_right c x)
    · exact ih (min c c') h2

theorem foldl_min_mem (cs : List ℚ) (c : ℚ) : cs.foldl min c = c ∨ cs.foldl min c ∈ cs := by
  induction cs generalizing c with
  | nil => exact Or.inl rfl
  | cons c' cs ih =>
    rcases ih (min c c') with h | h
    · rcases min_choice c c' with hc | hc
      · exact Or.inl (by rw [List.foldl_cons, h, hc])
      · exact Or.inr (by rw [List.foldl_cons, h, hc]; exact List.mem_cons_self c' cs)
    · exact Or.inr (List.mem_cons_of_mem c' h)

theorem minList_mem {l : List ℚ} (h : l ≠ []) : minList l ∈ l := by
  match l with
  | [] => exact absurd rfl h
  | c :: cs =>
    rcases foldl_min_mem cs c with h1 | h1
    · have h2 : minList (c :: cs) = c := h1
      rw [h2]
      exact List.mem_cons_self c cs
    · exact List.mem_cons_of_mem c h1

theorem minList_le (l : List ℚ) (x : ℚ) (h : x ∈ l) : minList l ≤ x := by
  match l with
  | [] => cases h
  | c :: cs =>
    rcases List.mem_cons.mp h with h1 | h1
    · exact h1 ▸ foldl_min_le_init cs c
    · exact foldl_min_le_mem cs c x h1

theorem mem_insLE {le : α → α → Bool} {a x : α} :
    ∀ {l : List α}, x ∈ insLE le a l ↔ x = a ∨ x ∈ l := by
  intro l
  induction l with
  | nil => simp [insLE]
  | cons b bs ih =>
    simp only [insLE]
    split
    · simp [List.mem_cons]
    · simp only [List.mem_cons, ih]
      tauto

theorem mem_sortLE {le : α → α → Bool} {x : α} :
    ∀ {l : List α}, x ∈ sortLE le l ↔ x ∈ l := by
  intro l
  induction l with
  | nil => simp [sortLE]
  | cons b bs ih =>
    show x ∈ insLE le b (sortLE le bs) ↔ _
    rw [mem_insLE]
    simp [ih, List.mem_cons]

theorem length_insLE (le : α → α → Bool) (a : α) :
    ∀ (l : List α), (insLE le a l).length = l.length + 1 := by
  intro l
  induction l with
  | nil => rfl
  | cons b bs ih =>
    simp only [insLE]
    split
    · simp
    · simp [ih]

theorem length_sortLE (le : α → α → Bool) :
    ∀ (l : List α), (sortLE le l).length = l.length := by
  intro l
  induction l with
  | nil => rfl
  | cons b bs ih =>
    show (insLE le b (sortLE le bs)).length = _
    rw [length_insLE, ih]
    rfl

theorem mem_set_elim {l : List α} {i : Nat} {a x : α} (h : x ∈ l.set i a) :
    x = a ∨ x ∈ l := by
  induction l generalizing i with
  | nil => cases h
  | cons b bs ih =>
    cases i with
    | zero =>
      rcases List.mem_cons.mp h with h1 | h1
      · exact Or.inl h1
      · exact Or.inr (List.mem_cons_of_mem b h1)
    | succ j =>
      rcases List.mem_cons.mp h with h1 | h1
      · exact Or.inr (h1 ▸ List.mem_cons_self b bs)
      · rcases ih h1 with h2 | h2
        · exact Or.inl h2
        · exact Or.inr (List.mem_cons_of_mem b h2)

theorem getD_mem_or (l : List α) (i : Nat) (d : α) : l.getD i d ∈ l ∨ l.getD i d = d := by
  induction l generalizing i with
  | nil => exact Or.inr rfl
  | cons b bs ih =>
    cases i with
    | zero => exact Or.inl (List.mem_cons_self b bs)
    | succ j =>
      rcases ih j with h | h
      · exact Or.inl (List.mem_cons_of_mem b h)
      · exact Or.inr h

/-- C1, counterexample: a table block with *no* structural cell blocks whose
4 words form a visually clean 2×2 grid (the words hang directly off the TABLE
block).  The claim asserts spatial reconstruction succeeds with a 2×2 grid;
the code collects words only through CELL children, finds none, and fails. -/
theorem C1_counterexample :
    reconstruct_table_structure_spatially tabBad blocksBad = none := by decide

/-- C1, amended: for the scenario-C table whose 4 clean-grid words are held
by its CELL child (rows separated by far more than the row tolerance 0.005,
facing column edges separated by far more than the boundary tolerance 0.012),
spatial reconstruction succeeds — but with `rowCount = 2` and
`columnCount = 3`: each of the four distinct word edges survives boundary
merging, so the gap between the two visual columns becomes its own empty
middle column, and each word's text occupies the corresponding outer cell. -/
theorem C1_amended_scenario :
    reconstruct_table_structure_spatially tabC blocksC = some
      { table_id := "T", page_number := some 1, row_count := 2, column_count := 3,
        rows := [⟨1, [⟨1, "A", 99⟩, ⟨2, "", 0⟩, ⟨3, "B", 99⟩]⟩,
                 ⟨2, [⟨1, "C", 99⟩, ⟨2, "", 0⟩, ⟨3, "D", 99⟩]⟩] } := by decide

/-- C6, counterexample: a KEY-tagged block with no VALUE relationship is
*not* omitted — the extractor still emits a pair for it, with empty value
text and value confidence 0. -/
theorem C6_counterexample :
    extractKeyValuePairs blocks6 blocks6 =
      [{ key := "Name", keyConfidence := 90, value := "", valueConfidence := 0,
         keyGeometry := none, pageNumber := none }] := by decide

/-- C7, counterexample: for the scenario-B blocks the emitted pair's value is
`"01/01/2024"` — the trailing space from the concatenation is removed by the
final `.strip()` (lambda.py line 353), so the claimed value `"01/01/2024 "`
is not produced. -/
theorem C7_counterexample :
    (extractKeyValuePairs blocks7 blocks7).map KVPair.value = ["01/01/2024"] ∧
      ("01/01/2024" : String) ≠ "01/01/2024 " := by decide

/-- C7, amended: scenario B produces the pair with key `Date`, key confidence
98, value `"01/01/2024"` (the per-block trailing spaces of the concatenation
are trimmed when the pair is emitted), value confidence 95 taken as the
maximum over the contributing value blocks of the first VALUE relationship. -/
theorem C7_amended_scenario :
    extractKeyValuePairs blocks7 blocks7 =
      [{ key := "Date", keyConfidence := 98, value := "01/01/2024",
         valueConfidence := 95, keyGeometry := none, pageNumber := some 1 }] := by decide

/-- C8, counterexample: a document with no TABLE blocks and no LINE blocks
yields an *empty* tabular artifact — the claimed header row is only emitted
when at least one LINE block exists. -/
theorem C8_counterexample :
    parse_tables_to_csv_data noExc [] [] = .ok [] ∧
      ([] : List (List String)) ≠ [["Detected Lines (No Table Structure Found)"]] := by
  constructor
  · decide
  · decide

/-- C4, counterexample: in the structured record, the structural-fallback
table of `blocks4` has `rowCount = 2`, `columnCount = 2`, but its first row
lists 1 cell and its second row 2 cells — rows of one finished table differ
in column count. -/
theorem C4_counterexample :
    (parse_blocks_to_structured_json blocks4 blocks4 "doc.pdf" "job-1").map
        (fun r => r.tables.map fun t =>
          (t.rowCount, t.columnCount, t.rows.map fun rw => rw.cells.length)) =
      .ok [(2, 2, [1, 2])] ∧ (1 : Nat) ≠ 2 := by
  constructor
  · decide
  · decide

/-- C5, counterexample: in `blocks5` the first table's spatial pass fails (no
words) and its structural pass hits a CELL block with no `RowIndex`; the
resulting exception is caught by no per-table handler, so the whole CSV
parse aborts — the healthy second table is never processed, contradicting
the claim that a per-table failure never aborts the remaining tables. -/
theorem C5_counterexample :
    parse_tables_to_csv_data noExc blocks5 blocks5 = .error () := by decide

/-- C9, counterexample: the structured record's top-level field is
`originalS3Key`, not the claimed `originalSourceKey`, and the table-level
confidence 99.125 is passed through with more than two decimal places. -/
theorem C9_counterexample :
    (parse_blocks_to_structured_json blocks9 blocks9 "doc.pdf" "job-1").map
        (fun r => objKeys r.toJson) =
      .ok ["originalS3Key", "processingJobId", "documentMetadata", "tables",
           "keyValuePairs", "rawLines"] ∧
    ("originalSourceKey" : String) ∉
      ["originalS3Key", "processingJobId", "documentMetadata", "tables",
       "keyValuePairs", "rawLines"] ∧
    (parse_blocks_to_structured_json blocks9 blocks9 "doc.pdf" "job-1").map
        (fun r => r.tables.map TableData.confidence) = .ok [some (793 / 8)] ∧
    ¬ rounded2 (793 / 8) := by
  refine ⟨by decide, by decide, by decide, by decide⟩

theorem dropWhile_idem (p : α → Bool) (l : List α) :
    (l.dropWhile p).dropWhile p = l.dropWhile p := by
  induction l with
  | nil => rfl
  | cons a l ih =>
    by_cases h : p a
    · simp [List.dropWhile_cons, h, ih]
    · simp [List.dropWhile_cons, h]

theorem dropWhile_head?_not (p : α → Bool) (l : List α) {a : α}
    (h : (l.dropWhile p).head? = some a) : p a = false := by
  have h2 := List.head?_dropWhile_not p l
  rw [h] at h2
  exact h2

theorem dropWhile_getLast?_eq (p : α → Bool) (l : List α) (h : l.dropWhile p ≠ []) :
    (l.dropWhile p).getLast? = l.getLast? := by
  obtain ⟨t, ht⟩ := List.dropWhile_suffix p (l := l)
  conv_rhs => rw [← ht]
  rw [List.getLast?_append_of_ne_nil t h]

theorem pyStrip_idem (s : String) : pyStrip (pyStrip s) = pyStrip s := by
  have key : ∀ (l : List Char),
      ((((((l.dropWhile Char.isWhitespace).reverse.dropWhile
        Char.isWhitespace).reverse).dropWhile Char.isWhitespace).reverse.dropWhile
          Char.isWhitespace).reverse) =
      ((l.dropWhile Char.isWhitespace).reverse.dropWhile Char.isWhitespace).reverse := by
    intro l
    have hA : (((l.dropWhile Char.isWhitespace).reverse.dropWhile
        Char.isWhitespace).reverse).dropWhile Char.isWhitespace =
        ((l.dropWhile Char.isWhitespace).reverse.dropWhile Char.isWhitespace).reverse := by
      cases hvr : ((l.dropWhile Char.isWhitespace).reverse.dropWhile
          Char.isWhitespace).reverse with
      | nil => simp
      | cons a t =>
        have hvne : (l.dropWhile Char.isWhitespace).reverse.dropWhile
            Char.isWhitespace ≠ [] := by
          intro h0
          rw [h0] at hvr
          simp at hvr
        have h1 : (((l.dropWhile Char.isWhitespace).reverse.dropWhile
            Char.isWhitespace).reverse).head? = some a := by rw [hvr]; rfl
        have h2 : ((l.dropWhile Char.isWhitespace).reverse.dropWhile
            Char.isWhitespace).getLast? = some a := by
          rw [← List.head?_reverse, h1]
        have h3 : (l.dropWhile Char.isWhitespace).reverse.getLast? = some a := by
          rw [← dropWhile_getLast?_eq Char.isWhitespace
            (l.dropWhile Char.isWhitespace).reverse hvne, h2]
        have h4 : (l.dropWhile Char.isWhitespace).head? = some a := by
          rw [← List.getLast?_reverse, h3]
        have h5 : Char.isWhitespace a = false := dropWhile_head?_not Char.isWhitespace l h4
        simp [List.dropWhile_cons, h5]
    rw [hA, List.reverse_reverse, dropWhile_idem]
  exact congrArg String.mk (key s.data)

/-- C3: the text/confidence resolver returns the space-joined, trimmed texts
of the CHILD WORD / SELECTION_ELEMENT contributions; it falls back to the
block's own (trimmed) text when no child contributed text, adding the block's
own confidence to the contributors in exactly that case; the returned
confidence is the minimum of all contributing confidences (it is one of them
and is below each of them); with zero contributors and no own text the result
is confidence 0 and empty text.  Purity holds by construction: the resolver
is a function of the block and the index alone. -/
theorem C3_resolver (b : Block) (m : List Block) :
    (get_text_and_confidence_from_block b m).2 = minList (contribConfs b m) ∧
    (contribConfs b m ≠ [] →
      (get_text_and_confidence_from_block b m).2 ∈ contribConfs b m ∧
      ∀ c ∈ contribConfs b m, (get_text_and_confidence_from_block b m).2 ≤ c) ∧
    (childContribs b m = [] → b.text = none →
      get_text_and_confidence_from_block b m = ("", 0)) ∧
    (pyStrip (String.intercalate " " ((childContribs b m).map Prod.fst)) ≠ "" →
      (get_text_and_confidence_from_block b m).1 =
        pyStrip (String.intercalate " " ((childContribs b m).map Prod.fst))) ∧
    (∀ t, b.text = some t →
      pyStrip (String.intercalate " " ((childContribs b m).map Prod.fst)) = "" →
      (get_text_and_confidence_from_block b m).1 = pyStrip t) := by
  have h1 : (get_text_and_confidence_from_block b m).2 = minList (contribConfs b m) := by
    unfold get_text_and_confidence_from_block contribConfs
    by_cases h : pyStrip (String.intercalate " " ((childContribs b m).map Prod.fst)) = ""
    · cases ht : b.text <;> simp [h, ht]
    · simp [h]
  refine ⟨h1, fun hne => ⟨h1 ▸ minList_mem hne, fun c hc => h1 ▸ minList_le _ c hc⟩,
    ?_, ?_, ?_⟩
  · intro hcc htxt
    unfold get_text_and_confidence_from_block
    rw [hcc, htxt]
    rfl
  · intro hne
    unfold get_text_and_confidence_from_block
    rw [if_neg hne]
    exact pyStrip_idem _
  · intro t ht hjoined
    unfold get_text_and_confidence_from_block
    rw [if_pos hjoined, ht]

/-- C3, witness: the resolver theorem applied to a concrete block with two
WORD children of confidences 80 and 90: the resolved confidence is among the
contributing confidences and below each of them, the resolved text is the
joined child text. -/
theorem C3_resolver_witness :
    ((get_text_and_confidence_from_block b3 blocks3).2 ∈ contribConfs b3 blocks3 ∧
      ∀ c ∈ contribConfs b3 blocks3, (get_text_and_confidence_from_block b3 blocks3).2 ≤ c) ∧
    (get_text_and_confidence_from_block b3 blocks3).1 =
      pyStrip (String.intercalate " " ((childContribs b3 blocks3).map Prod.fst)) := by
  refine ⟨(C3_resolver b3 blocks3).2.1 (by decide), ?_⟩
  exact (C3_resolver b3 blocks3).2.2.2.1 (by decide)

theorem findContaining_lt (c : ℚ) :
    ∀ (rs : List ColRange) (i j : Nat), findContaining c rs i = some j → j < i + rs.length := by
  intro rs
  induction rs with
  | nil =>
    intro i j h
    cases h
  | cons r rest ih =>
    intro i j h
    unfold findContaining at h
    split at h
    · cases h
      simp
    · have h2 := ih (i + 1) j h
      simp only [List.length_cons]
      omega

theorem closestAux_lt (c : ℚ) :
    ∀ (rs : List ColRange) (i best : Nat) (bd : Option ℚ) (M : Nat),
      best < M → i + rs.length ≤ M → closestAux c rs i best bd < M := by
  intro rs
  induction rs with
  | nil =>
    intro i best bd M h1 _
    exact h1
  | cons r rest ih =>
    intro i best bd M h1 h2
    simp only [List.length_cons] at h2
    cases bd with
    | none => exact ih (i + 1) i _ M (by omega) (by omega)
    | some mdist =>
      simp only [closestAux]
      split
      · exact ih (i + 1) i _ M (by omega) (by omega)
      · exact ih (i + 1) best _ M h1 (by omega)

theorem addToGroup_keys_forall {P : Nat → Prop} :
    ∀ (g : List (Nat × List α)) (c : Nat) (w : α),
      (∀ p ∈ g, P p.1) → P c → ∀ p ∈ addToGroup g c w, P p.1 := by
  intro g
  induction g with
  | nil =>
    intro c w _ hc p hp
    simp only [addToGroup, List.mem_singleton] at hp
    rw [hp]
    exact hc
  | cons e rest ih =>
    intro c w hg hc p hp
    unfold addToGroup at hp
    split at hp
    · next hkc =>
      rcases List.mem_cons.mp hp with h | h
      · subst h
        show P e.1
        rw [hkc]
        exact hc
      · exact hg p (List.mem_cons_of_mem e h)
    · rcases List.mem_cons.mp hp with h | h
      · exact hg p (h ▸ List.mem_cons_self e rest)
      · exact ih c w (fun q hq => hg q (List.mem_cons_of_mem e hq)) hc p h

theorem groupFold_keys_forall {P : Nat → Prop} (f : β → Nat) :
    ∀ (ws : List β) (acc : List (Nat × List β)),
      (∀ p ∈ acc, P p.1) → (∀ w, P (f w)) →
      ∀ p ∈ ws.foldl (fun g w => addToGroup g (f w) w) acc, P p.1 := by
  intro ws
  induction ws with
  | nil =>
    intro acc hacc _ p hp
    exact hacc p hp
  | cons w ws ih =>
    intro acc hacc hf p hp
    exact ih (addToGroup acc (f w) w)
      (addToGroup_keys_forall acc (f w) w hacc (hf w)) hf p hp

/-- C10: whenever the spatial reconstructor's column-range list is nonempty,
`get_column_index` returns an index strictly below the number of ranges (the
first containing range, else the range with the closest edge), so every word
of a row is grouped under an existing column index and the bounds check that
would silently drop a word (lambda.py line 736) is never the reason a word
disappears. -/
theorem C10_column_index_bounds (ranges : List ColRange) (h : ranges ≠ []) :
    (∀ w : SpatialWord, get_column_index ranges w < ranges.length) ∧
    (∀ (rowWords : List SpatialWord) (g : Nat × List SpatialWord),
      g ∈ groupByColumn ranges rowWords → g.1 < ranges.length) := by
  have hM : 1 ≤ ranges.length := by
    cases ranges with
    | nil => exact absurd rfl h
    | cons r rest => simp
  have hidx : ∀ w : SpatialWord, get_column_index ranges w < ranges.length := by
    intro w
    unfold get_column_index
    split
    · next i hfound =>
      have h2 := findContaining_lt w.centerX ranges 0 i hfound
      omega
    · exact closestAux_lt w.centerX ranges 0 0 none ranges.length (by omega) (by omega)
  refine ⟨hidx, fun rowWords g hg => ?_⟩
  exact groupFold_keys_forall (P := fun k => k < ranges.length) (get_column_index ranges)
    rowWords [] (by intro p hp; cases hp) hidx g hg

/-- C10, witness: on the three concrete column ranges of the scenario-C run,
a word whose center lies outside every range (closest-edge path) still
receives an index below 3, and grouping a concrete row keeps all keys below
3. -/
theorem C10_column_index_bounds_witness :
    (get_column_index rangesW ⟨"w", "t", 99, 2, 0, 0, 0⟩ < rangesW.length) ∧
    (∀ g ∈ groupByColumn rangesW [⟨"w", "t", 99, 2, 0, 0, 0⟩], g.1 < rangesW.length) := by
  refine ⟨(C10_column_index_bounds rangesW (by decide)).1 _, fun g hg => ?_⟩
  exact (C10_column_index_bounds rangesW (by decide)).2 _ g hg

/-- C6, amended: a KEY-tagged KEY_VALUE_SET block with no relationship of
type VALUE is *not* omitted: the extractor still emits its pair, with empty
value text and value confidence 0. -/
theorem C6_amended_key_without_value (blocks m : List Block) (kb : Block)
    (hmem : kb ∈ blocks) (hty : kb.blockType = BlockType.KEY_VALUE_SET)
    (hkey : kb.entityTypes.contains "KEY" = true)
    (hnov : ∀ r ∈ kb.relationships, r.relType ≠ RelType.VALUE) :
    keyValueFor m kb ∈ extractKeyValuePairs blocks m ∧
    (keyValueFor m kb).value = "" ∧ (keyValueFor m kb).valueConfidence = 0 := by
  have hfind : kb.relationships.find? isValueRel = none := by
    rw [List.find?_eq_none]
    intro r hr
    have h2 := hnov r hr
    unfold isValueRel
    cases hrt : r.relType
    · simp
    · exact absurd hrt h2
  have hv : valueTextConf m kb = ("", 0) := by
    unfold valueTextConf
    rw [hfind]
  refine ⟨?_, ?_, ?_⟩
  · unfold extractKeyValuePairs
    refine List.mem_map_of_mem (keyValueFor m) ?_
    refine List.mem_filter.mpr ⟨List.mem_filter.mpr ⟨hmem, ?_⟩, hkey⟩
    simp [isKVSetB, hty]
  · show pyStrip (valueTextConf m kb).1 = ""
    rw [hv]
    decide
  · show round2 (valueTextConf m kb).2 = 0
    rw [hv]
    decide

/-- C6, amended, witness: the concrete KEY block `kb6` (no VALUE
relationship) appears in the extractor output with empty value and zero
value confidence. -/
theorem C6_amended_witness :
    keyValueFor blocks6 kb6 ∈ extractKeyValuePairs blocks6 blocks6 ∧
    (keyValueFor blocks6 kb6).value = "" ∧
    (keyValueFor blocks6 kb6).valueConfidence = 0 :=
  C6_amended_key_without_value blocks6 blocks6 kb6 (by decide) (by decide) (by decide)
    (by decide)

theorem except_map_nil_append (x : Except Unit (List (List String))) :
    x.map (fun t => [] ++ t) = x := by
  cases x <;> simp [Except.map]

theorem csvLoop_eq_go (exc : Nat → Bool) (m : List Block) :
    ∀ (ts : List Block) (tn : Nat) (acc : List (List String)),
      csvLoop exc m tn acc ts =
        (csvGo exc m tn (!acc.isEmpty) ts).map (fun t => acc ++ t) := by
  intro ts
  induction ts with
  | nil =>
    intro tn acc
    simp [csvLoop, csvGo, Except.map]
  | cons tb rest ih =>
    intro tn acc
    cases hbody : csvTableBody (if exc tn then none else
        reconstruct_table_structure_spatially tb m) m tb with
    | error e =>
      simp only [csvLoop, csvGo, hbody, Except.map]
    | ok body =>
      have hb : (!((if acc = [] then acc
          else acc ++ [[], labelRow tn tb]) ++ body).isEmpty)
          = (!acc.isEmpty || !body.isEmpty) := by
        cases acc <;> simp
      simp only [csvLoop, csvGo, hbody]
      rw [ih, hb]
      cases htail : csvGo exc m (tn + 1) (!acc.isEmpty || !body.isEmpty) rest with
      | error e => simp [Except.map]
      | ok tail =>
        simp only [Except.map]
        congr 1
        cases acc <;> simp

/-- C8, amended: with no TABLE blocks and at least one LINE block the tabular
artifact is the header row followed by one single-cell row per LINE block;
with no tables and no lines it is empty (no header row); with tables, the
artifact is the concatenation of the per-table contributions of `csvGo`, in
which the blank separator row and the label row precede exactly those tables
before which some earlier table has already contributed rows (so "before
every table except the first" only when every earlier table contributes). -/
theorem C8_amended_assembly (exc : Nat → Bool) (blocks m : List Block) :
    (tablesOf blocks = [] → linesOf blocks ≠ [] →
      parse_tables_to_csv_data exc blocks m =
        .ok (["Detected Lines (No Table Structure Found)"] ::
          (linesOf blocks).map fun lb => [(get_text_and_confidence_from_block lb m).1])) ∧
    (tablesOf blocks = [] → linesOf blocks = [] →
      parse_tables_to_csv_data exc blocks m = .ok []) ∧
    (tablesOf blocks ≠ [] →
      parse_tables_to_csv_data exc blocks m = csvGo exc m 0 false (tablesOf blocks)) := by
  refine ⟨?_, ?_, ?_⟩
  · intro ht hl
    unfold parse_tables_to_csv_data
    rw [ht]
    cases hls : linesOf blocks with
    | nil => exact absurd hls hl
    | cons a as => rfl
  · intro ht hl
    unfold parse_tables_to_csv_data
    rw [ht, hl]
  · intro ht
    cases hts : tablesOf blocks with
    | nil => exact absurd hts ht
    | cons t ts =>
      unfold parse_tables_to_csv_data
      rw [hts]
      show csvLoop exc m 0 [] (t :: ts) = _
      rw [csvLoop_eq_go exc m (t :: ts) 0 []]
      show (csvGo exc m 0 false (t :: ts)).map (fun t => [] ++ t) = _
      rw [except_map_nil_append]

/-- C8, amended, witness: on the concrete one-line no-table document the
artifact is the header row followed by the line's single-cell row. -/
theorem C8_amended_witness :
    parse_tables_to_csv_data noExc blocksL blocksL =
      .ok [["Detected Lines (No Table Structure Found)"], ["hello"]] := by
  have h := (C8_amended_assembly noExc blocksL blocksL).1 (by decide) (by decide)
  rw [h]
  decide

/-- C5, amended: an unexpected exception in a table's spatial pass is caught
there and treated as a spatial failure (here: the injected fault produces the
`none` result), and spatial failure falls back to the structural builder.  A
table whose spatial pass fails and that has no resolvable cells contributes
nothing beyond its already-emitted separator: the loop continues with the
remaining tables unchanged.  But an unexpected exception in the structural
fallback itself propagates: the whole parse aborts and the remaining tables
are never processed.  With at least one table, the parser equals the
per-table decomposition `csvGo`. -/
theorem C5_amended_error_handling (exc : Nat → Bool) (m : List Block) :
    (∀ tn before tb rest,
      (if exc tn then none else reconstruct_table_structure_spatially tb m) = none →
      collectCellsWithMerged m tb = [] →
      csvGo exc m tn before (tb :: rest) =
        (csvGo exc m (tn + 1) before rest).map
          (fun t => (if before then [[], labelRow tn tb] else []) ++ t)) ∧
    (∀ tn before tb rest,
      (if exc tn then none else reconstruct_table_structure_spatially tb m) = none →
      buildCsvAcc m (collectCellsWithMerged m tb) = .error () →
      csvGo exc m tn before (tb :: rest) = .error ()) ∧
    (∀ blocks, tablesOf blocks ≠ [] →
      parse_tables_to_csv_data exc blocks m = csvGo exc m 0 false (tablesOf blocks)) := by
  refine ⟨?_, ?_, ?_⟩
  · intro tn before tb rest hspa hcells
    have hbody : csvTableBody (if exc tn then none else
        reconstruct_table_structure_spatially tb m) m tb = .ok [] := by
      rw [hspa]
      unfold csvTableBody
      rw [hcells]
    simp only [csvGo, hbody]
    have hb : (before || !(List.isEmpty ([] : List (List String)))) = before := by simp
    rw [hb]
    cases h2 : csvGo exc m (tn + 1) before rest with
    | error e => rfl
    | ok tail => simp [Except.map]
  · intro tn before tb rest hspa herr
    have hbody : csvTableBody (if exc tn then none else
        reconstruct_table_structure_spatially tb m) m tb = .error () := by
      rw [hspa]
      unfold csvTableBody
      cases hcells : collectCellsWithMerged m tb with
      | nil =>
        rw [hcells] at herr
        simp [buildCsvAcc, List.foldlM, pure, Except.pure] at herr
      | cons c cs =>
        rw [hcells] at herr
        show structuralCsvRows m (c :: cs) = .error ()
        unfold structuralCsvRows
        rw [herr]
        rfl
    simp only [csvGo, hbody]
  · intro blocks ht
    cases hts : tablesOf blocks with
    | nil => exact absurd hts ht
    | cons t ts =>
      unfold parse_tables_to_csv_data
      rw [hts]
      show csvLoop exc m 0 [] (t :: ts) = _
      rw [csvLoop_eq_go exc m (t :: ts) 0 []]
      show (csvGo exc m 0 false (t :: ts)).map (fun t => [] ++ t) = _
      rw [except_map_nil_append]

/-- C5, amended, witness: the concrete childless table is skipped (its
spatial pass fails, it has no cells) and the loop result is the empty
contribution. -/
theorem C5_amended_witness :
    csvGo noExc blocksE 0 false [tabEmpty] = .ok [] := by
  have h := (C5_amended_error_handling noExc blocksE).1 0 false tabEmpty []
    (by decide) (by decide)
  rw [h]
  decide

theorem rowCellStep_lengths (acc : List String × List ℚ) (g : Nat × List SpatialWord) :
    (rowCellStep acc g).1.length = acc.1.length ∧
    (rowCellStep acc g).2.length = acc.2.length := by
  unfold rowCellStep
  split
  · simp [List.length_set]
  · exact ⟨rfl, rfl⟩

theorem rowFold_lengths :
    ∀ (gs : List (Nat × List SpatialWord)) (acc : List String × List ℚ),
      (gs.foldl rowCellStep acc).1.length = acc.1.length ∧
      (gs.foldl rowCellStep acc).2.length = acc.2.length := by
  intro gs
  induction gs with
  | nil => intro acc; exact ⟨rfl, rfl⟩
  | cons g gs ih =>
    intro acc
    rw [List.foldl_cons]
    refine ⟨?_, ?_⟩
    · rw [(ih (rowCellStep acc g)).1, (rowCellStep_lengths acc g).1]
    · rw [(ih (rowCellStep acc g)).2, (rowCellStep_lengths acc g).2]

theorem buildRowCells_len1 (ranges : List ColRange) (rowWords : List SpatialWord) :
    (buildRowCells ranges rowWords).1.length = ranges.length := by
  unfold buildRowCells
  rw [(rowFold_lengths _ _).1, List.length_replicate]

theorem mkSRow_len (ranges : List ColRange) (idx : Nat) (rowWords : List SpatialWord) :
    (mkSRow ranges idx rowWords).cells.length = ranges.length := by
  unfold mkSRow
  rw [List.length_map, List.enum_length, buildRowCells_len1]

theorem spatial_rows_uniform (tb : Block) (m : List Block) (st : SpatialTable)
    (h : reconstruct_table_structure_spatially tb m = some st) :
    ∀ r ∈ st.rows, r.cells.length = st.column_count := by
  simp only [reconstruct_table_structure_spatially] at h
  split at h
  · cases h
  · split at h
    · cases h
    · split at h
      · cases h
      · split at h
        · cases h
        · cases h
          intro r hr
          rcases List.mem_map.mp hr with ⟨p, _, hp⟩
          rw [← hp]
          exact mkSRow_len _ _ _

theorem gridOf_uniform (acc : CsvAcc) : ∀ row ∈ gridOf acc, row.length = acc.maxC := by
  intro row hr
  rcases List.mem_map.mp hr with ⟨r, _, hrow⟩
  rw [← hrow, List.length_map, List.length_range]

theorem csvTableBody_none_uniform (m : List Block) (tb : Block)
    (body : List (List String)) (h : csvTableBody none m tb = .ok body) :
    ∃ k, ∀ row ∈ body, row.length = k := by
  have h2 : (match collectCellsWithMerged m tb with
      | [] => Except.ok []
      | cells => structuralCsvRows m cells) = Except.ok body := h
  cases hcells : collectCellsWithMerged m tb with
  | nil =>
    rw [hcells] at h2
    cases h2
    exact ⟨0, fun row hr => ((List.not_mem_nil row) hr).elim⟩
  | cons c cs =>
    rw [hcells] at h2
    have h3 : structuralCsvRows m (c :: cs) = Except.ok body := h2
    unfold structuralCsvRows at h3
    cases hacc : buildCsvAcc m (c :: cs) with
    | error e =>
      rw [hacc] at h3
      simp [Except.bind, bind] at h3
    | ok acc =>
      rw [hacc] at h3
      simp only [Except.bind, bind] at h3
      split at h3
      · cases h3
        exact ⟨acc.maxC, gridOf_uniform acc⟩
      · cases h3
        exact ⟨0, fun row hr => ((List.not_mem_nil row) hr).elim⟩

/-- C4, amended: every row of a *spatially* reconstructed grid has exactly
`columnCount` cells, and every per-table body of the tabular artifact (either
the spatial grid, the padded structural grid, or the empty contribution of a
skipped table; with or without an injected spatial exception) has rows of one
common length — rows of the tabular artifact differ in length only across
separator/label rows.  The structural tables of the *structured record*,
however, list only the declared cells of each row and may be ragged (see the
counterexample). -/
theorem C4_amended_uniform_rows :
    (∀ (tb : Block) (m : List Block) (st : SpatialTable),
      reconstruct_table_structure_spatially tb m = some st →
      ∀ r ∈ st.rows, r.cells.length = st.column_count) ∧
    (∀ (e : Bool) (m : List Block) (tb : Block) (body : List (List String)),
      csvTableBody (if e then none else reconstruct_table_structure_spatially tb m) m tb
        = .ok body →
      ∃ k, ∀ row ∈ body, row.length = k) := by
  refine ⟨spatial_rows_uniform, ?_⟩
  intro e m tb body h
  cases e with
  | true => exact csvTableBody_none_uniform m tb body h
  | false =>
    rw [if_neg Bool.false_ne_true] at h
    cases hspa : reconstruct_table_structure_spatially tb m with
    | none =>
      rw [hspa] at h
      exact csvTableBody_none_uniform m tb body h
    | some st =>
      rw [hspa] at h
      unfold csvTableBody at h
      cases h
      refine ⟨st.column_count, ?_⟩
      intro row hr
      rcases List.mem_map.mp hr with ⟨r, hrmem, hrow⟩
      rw [← hrow, List.length_map]
      exact spatial_rows_uniform tb m st hspa r hrmem

/-- C4, amended, witness: the scenario-C spatial grid is uniform — both of
its rows carry exactly `columnCount = 3` cells. -/
theorem C4_amended_witness :
    ∀ r ∈ (SpatialTable.mk "T" (some 1) 2 3
        [⟨1, [⟨1, "A", 99⟩, ⟨2, "", 0⟩, ⟨3, "B", 99⟩]⟩,
         ⟨2, [⟨1, "C", 99⟩, ⟨2, "", 0⟩, ⟨3, "D", 99⟩]⟩]).rows,
      r.cells.length = 3 :=
  (C4_amended_uniform_rows).1 tabC blocksC _ (by decide)

theorem mem_spanOffsets {rs cs : Nat} {rc : Nat × Nat} :
    rc ∈ spanOffsets rs cs ↔ rc.1 < rs ∧ rc.2 < cs := by
  unfold spanOffsets
  simp only [List.mem_flatMap, List.mem_map, List.mem_range]
  constructor
  · rintro ⟨ro, hro, co, hco, hrc⟩
    rw [← hrc]
    exact ⟨hro, hco⟩
  · rintro ⟨h1, h2⟩
    exact ⟨rc.1, h1, rc.2, h2, rfl⟩

theorem spanOffsets_nodup (rs cs : Nat) : (spanOffsets rs cs).Nodup := by
  induction rs with
  | zero => exact List.Pairwise.nil
  | succ n ih =>
    show ((List.range (n + 1)).flatMap fun ro => (List.range cs).map fun co => (ro, co)).Nodup
    rw [List.range_succ, List.flatMap_append]
    refine List.Nodup.append ih ?_ ?_
    · simp only [List.flatMap_cons, List.flatMap_nil, List.append_nil]
      refine List.Nodup.map ?_ (List.nodup_range cs)
      intro a b hab
      injection hab
    · intro q hq1 hq2
      have h1 : q.1 < n := (mem_spanOffsets.mp hq1).1
      simp only [List.flatMap_cons, List.flatMap_nil, List.append_nil, List.mem_map] at hq2
      rcases hq2 with ⟨co, _, hco⟩
      rw [← hco] at h1
      exact absurd h1 (by omega)

theorem writeCellSpan_notin (ri ci : Nat) (t : String) :
    ∀ (offs : List (Nat × Nat)) (mp : Nat × Nat → Option String) (p : Nat × Nat),
      (∀ rc ∈ offs, (ri + rc.1, ci + rc.2) ≠ p) →
      writeCellSpan ri ci t offs mp p = mp p := by
  intro offs
  induction offs with
  | nil =>
    intro mp p _
    rfl
  | cons rc offs ih =>
    intro mp p h
    have hne := h rc (List.mem_cons_self rc offs)
    rw [show writeCellSpan ri ci t (rc :: offs) mp = writeCellSpan ri ci t offs
      (fun q =>
        if q = (ri + rc.1, ci + rc.2) then
          if rc.1 = 0 ∧ rc.2 = 0 then some t
          else some ((mp (ri + rc.1, ci + rc.2)).getD "")
        else mp q) from rfl]
    rw [ih _ p (fun rc' h' => h rc' (List.mem_cons_of_mem rc h'))]
    exact if_neg (Ne.symm hne)

theorem writeCellSpan_mem (ri ci : Nat) (t : String) :
    ∀ (offs : List (Nat × Nat)) (mp : Nat × Nat → Option String) (p : Nat × Nat)
      (rc0 : Nat × Nat),
      ((offs.map fun rc => (ri + rc.1, ci + rc.2)).Nodup) →
      rc0 ∈ offs → (ri + rc0.1, ci + rc0.2) = p →
      writeCellSpan ri ci t offs mp p =
        (if rc0.1 = 0 ∧ rc0.2 = 0 then some t else some ((mp p).getD "")) := by
  intro offs
  induction offs with
  | nil =>
    intro mp p rc0 _ hmem _
    cases hmem
  | cons rc offs ih =>
    intro mp p rc0 hnd hmem hpos
    rw [List.map_cons] at hnd
    rcases List.nodup_cons.mp hnd with ⟨hhead, htail⟩
    rw [show writeCellSpan ri ci t (rc :: offs) mp = writeCellSpan ri ci t offs
      (fun q =>
        if q = (ri + rc.1, ci + rc.2) then
          if rc.1 = 0 ∧ rc.2 = 0 then some t
          else some ((mp (ri + rc.1, ci + rc.2)).getD "")
        else mp q) from rfl]
    rcases List.mem_cons.mp hmem with h | h
    · subst h
      have hrest : ∀ rc' ∈ offs, (ri + rc'.1, ci + rc'.2) ≠ p := by
        intro rc' h' heq
        apply hhead
        rw [hpos, ← heq]
        exact List.mem_map_of_mem _ h'
      rw [writeCellSpan_notin ri ci t offs _ p hrest]
      rw [if_pos hpos.symm, hpos]
    · have hne : (ri + rc.1, ci + rc.2) ≠ p := by
        intro heq
        apply hhead
        rw [heq, ← hpos]
        exact List.mem_map_of_mem _ h
      rw [ih _ p rc0 htail h hpos]
      by_cases h0 : rc0.1 = 0 ∧ rc0.2 = 0
      · rw [if_pos h0, if_pos h0]
      · rw [if_neg h0, if_neg h0, if_neg (Ne.symm hne)]

theorem writeCellSpan_eval (ri ci rs cs : Nat) (t : String)
    (hrs : 1 ≤ rs) (hcs : 1 ≤ cs) (mp : Nat × Nat → Option String) (p : Nat × Nat) :
    writeCellSpan ri ci t (spanOffsets rs cs) mp p =
      if p = (ri, ci) then some t
      else if ri ≤ p.1 ∧ p.1 < ri + rs ∧ ci ≤ p.2 ∧ p.2 < ci + cs then
        some ((mp p).getD "")
      else mp p := by
  obtain ⟨p1, p2⟩ := p
  have hnd : ((spanOffsets rs cs).map fun rc => (ri + rc.1, ci + rc.2)).Nodup := by
    refine List.Nodup.map ?_ (spanOffsets_nodup rs cs)
    intro a b hab
    rw [Prod.mk.injEq] at hab
    exact Prod.ext (by omega) (by omega)
  by_cases hcov : ri ≤ p1 ∧ p1 < ri + rs ∧ ci ≤ p2 ∧ p2 < ci + cs
  · have hmem : ((p1 - ri : Nat), (p2 - ci : Nat)) ∈ spanOffsets rs cs := by
      rw [mem_spanOffsets]
      exact ⟨by omega, by omega⟩
    have hpos : (ri + (p1 - ri), ci + (p2 - ci)) = (p1, p2) := by
      rw [Prod.mk.injEq]
      exact ⟨by omega, by omega⟩
    rw [writeCellSpan_mem ri ci t (spanOffsets rs cs) mp (p1, p2) _ hnd hmem hpos]
    by_cases h0 : (p1, p2) = (ri, ci)
    · rw [if_pos h0]
      rw [Prod.mk.injEq] at h0
      rw [if_pos ⟨by omega, by omega⟩]
    · rw [if_neg h0, if_pos hcov]
      rw [Prod.mk.injEq] at h0
      rw [if_neg (by omega)]
  · have hnotin : ∀ rc ∈ spanOffsets rs cs, (ri + rc.1, ci + rc.2) ≠ (p1, p2) := by
      intro rc hrc heq
      rw [mem_spanOffsets] at hrc
      rw [Prod.mk.injEq] at heq
      exact hcov ⟨by omega, by omega, by omega, by omega⟩
    rw [writeCellSpan_notin ri ci t _ mp (p1, p2) hnotin]
    have h0 : ¬((p1, p2) = (ri, ci)) := by
      rw [Prod.mk.injEq]
      intro hh
      exact hcov ⟨by omega, by omega, by omega, by omega⟩
    rw [if_neg h0, if_neg hcov]

theorem cellsDisjoint_symm : Symmetric cellsDisjoint := by
  intro a b h
  unfold cellsDisjoint at h ⊢
  tauto

theorem cellsDisjoint_not_both {a b : Block} (h : cellsDisjoint a b) (p : Nat × Nat) :
    ¬(cellCovers a p ∧ cellCovers b p) := by
  rintro ⟨⟨ha1, ha2, ha3, ha4⟩, ⟨hb1, hb2, hb3, hb4⟩⟩
  unfold cellsDisjoint at h
  omega

theorem cellCovers_tl {cb : Block} (h1 : 1 ≤ cb.rowSpan.getD 1)
    (h2 : 1 ≤ cb.columnSpan.getD 1) : cellCovers cb (cellTL cb) := by
  unfold cellCovers cellTL
  refine ⟨le_refl _, by omega, le_refl _, by omega⟩

theorem processCellCsvOk_cmap (m : List Block) (acc : CsvAcc) (cb : Block)
    (h1 : 1 ≤ cb.rowSpan.getD 1) (h2 : 1 ≤ cb.columnSpan.getD 1) (q : Nat × Nat) :
    (processCellCsvOk m acc cb).cmap q =
      if q = cellTL cb then some (get_text_and_confidence_from_block cb m).1
      else if cellCovers cb q then some ((acc.cmap q).getD "")
      else acc.cmap q := by
  show writeCellSpan (cb.rowIndex.getD 0) (cb.columnIndex.getD 0)
    (get_text_and_confidence_from_block cb m).1
    (spanOffsets (cb.rowSpan.getD 1) (cb.columnSpan.getD 1)) acc.cmap q = _
  rw [writeCellSpan_eval _ _ _ _ _ h1 h2 acc.cmap q]
  by_cases hq : q = (cb.rowIndex.getD 0, cb.columnIndex.getD 0)
  · rw [if_pos hq, if_pos (show q = cellTL cb from hq)]
  · rw [if_neg hq, if_neg (show ¬(q = cellTL cb) from hq)]
    by_cases hc : cellCovers cb q
    · rw [if_pos, if_pos hc]
      exact hc
    · rw [if_neg, if_neg hc]
      exact hc

theorem buildFold_eval (m : List Block) :
    ∀ (cells : List Block) (acc : CsvAcc),
      (∀ cb ∈ cells, 1 ≤ cb.rowSpan.getD 1 ∧ 1 ≤ cb.columnSpan.getD 1) →
      cells.Pairwise cellsDisjoint →
      (∀ q, (∃ cb ∈ cells, cellCovers cb q) → acc.cmap q = none) →
      ∀ p, (cells.foldl (processCellCsvOk m) acc).cmap p =
        match cells.find? (fun cb => decide (cellCovers cb p)) with
        | some cb =>
          some (if p = cellTL cb then (get_text_and_confidence_from_block cb m).1 else "")
        | none => acc.cmap p := by
  intro cells
  induction cells with
  | nil =>
    intro acc _ _ _ p
    rfl
  | cons cb cells ih =>
    intro acc hspan hdisj hfresh p
    rw [List.foldl_cons]
    rcases List.pairwise_cons.mp hdisj with ⟨hdisj1, hdisj2⟩
    have hspan1 := hspan cb (List.mem_cons_self cb cells)
    have hfresh1 : ∀ q, (∃ cb' ∈ cells, cellCovers cb' q) →
        (processCellCsvOk m acc cb).cmap q = none := by
      intro q hq
      rcases hq with ⟨cb', hcb', hcov'⟩
      have hnc : ¬ cellCovers cb q := fun hc =>
        cellsDisjoint_not_both (hdisj1 cb' hcb') q ⟨hc, hcov'⟩
      have hntl : ¬(q = cellTL cb) := fun hq =>
        hnc (hq ▸ cellCovers_tl hspan1.1 hspan1.2)
      rw [processCellCsvOk_cmap m acc cb hspan1.1 hspan1.2 q, if_neg hntl, if_neg hnc]
      exact hfresh q ⟨cb', List.mem_cons_of_mem cb hcb', hcov'⟩
    rw [ih (processCellCsvOk m acc cb)
      (fun c hc => hspan c (List.mem_cons_of_mem cb hc)) hdisj2 hfresh1 p]
    by_cases hc : cellCovers cb p
    · rw [List.find?_cons_of_pos cells (by simpa using hc)]
      cases hf : cells.find? (fun cb' => decide (cellCovers cb' p)) with
      | some cb' =>
        have hmem' := List.mem_of_find?_eq_some hf
        have hcov' : cellCovers cb' p := by simpa using List.find?_some hf
        exact absurd ⟨hc, hcov'⟩ (cellsDisjoint_not_both (hdisj1 cb' hmem') p)
      | none =>
        show (processCellCsvOk m acc cb).cmap p =
          some (if p = cellTL cb then (get_text_and_confidence_from_block cb m).1 else "")
        rw [processCellCsvOk_cmap m acc cb hspan1.1 hspan1.2 p]
        by_cases htl : p = cellTL cb
        · rw [if_pos htl, if_pos htl]
        · rw [if_neg htl, if_pos hc, if_neg htl]
          rw [hfresh p ⟨cb, List.mem_cons_self cb cells, hc⟩]
          rfl
    · rw [List.find?_cons_of_neg cells (by simpa using hc)]
      cases hf : cells.find? (fun cb' => decide (cellCovers cb' p)) with
      | some cb' => rfl
      | none =>
        show (processCellCsvOk m acc cb).cmap p = acc.cmap p
        rw [processCellCsvOk_cmap m acc cb hspan1.1 hspan1.2 p]
        have hntl : ¬(p = cellTL cb) := fun hq =>
          hc (hq ▸ cellCovers_tl hspan1.1 hspan1.2)
        rw [if_neg hntl, if_neg hc]

theorem covers_unique {cells : List Block} (hdisj : cells.Pairwise cellsDisjoint)
    {a b : Block} (ha : a ∈ cells) (hb : b ∈ cells) {p : Nat × Nat}
    (hca : cellCovers a p) (hcb : cellCovers b p) : a = b := by
  by_contra hne
  exact cellsDisjoint_not_both (hdisj.forall cellsDisjoint_symm ha hb hne) p ⟨hca, hcb⟩

theorem buildOk_eq (m : List Block) :
    ∀ (cells : List Block) (acc : CsvAcc),
      (∀ cb ∈ cells, cb.rowIndex.isSome ∧ cb.columnIndex.isSome) →
      List.foldlM (processCellCsv m) acc cells = .ok (cells.foldl (processCellCsvOk m) acc) := by
  intro cells
  induction cells with
  | nil =>
    intro acc _
    rfl
  | cons cb cells ih =>
    intro acc hidx
    have h1 := (hidx cb (List.mem_cons_self cb cells)).1
    have h2 := (hidx cb (List.mem_cons_self cb cells)).2
    rcases Option.isSome_iff_exists.mp h1 with ⟨ri, hri⟩
    rcases Option.isSome_iff_exists.mp h2 with ⟨ci, hci⟩
    have hstep : processCellCsv m acc cb = .ok (processCellCsvOk m acc cb) := by
      unfold processCellCsv processCellCsvOk
      rw [hri, hci]
      rfl
    rw [List.foldlM_cons]
    rw [hstep]
    show List.foldlM (processCellCsv m) (processCellCsvOk m acc cb) cells = _
    rw [ih (processCellCsvOk m acc cb) (fun c hc => hidx c (List.mem_cons_of_mem cb hc))]
    rw [List.foldl_cons]

theorem foldOk_maxR (m : List Block) :
    ∀ (cells : List Block) (acc : CsvAcc),
      (cells.foldl (processCellCsvOk m) acc).maxR =
        cells.foldl (fun a cb => max a (cb.rowIndex.getD 0 + cb.rowSpan.getD 1 - 1)) acc.maxR := by
  intro cells
  induction cells with
  | nil => intro acc; rfl
  | cons cb cells ih =>
    intro acc
    rw [List.foldl_cons, List.foldl_cons, ih]
    rfl

theorem foldOk_maxC (m : List Block) :
    ∀ (cells : List Block) (acc : CsvAcc),
      (cells.foldl (processCellCsvOk m) acc).maxC =
        cells.foldl (fun a cb => max a (cb.columnIndex.getD 0 + cb.columnSpan.getD 1 - 1))
          acc.maxC := by
  intro cells
  induction cells with
  | nil => intro acc; rfl
  | cons cb cells ih =>
    intro acc
    rw [List.foldl_cons, List.foldl_cons, ih]
    rfl

theorem foldOk_wrote_mono (m : List Block) :
    ∀ (cells : List Block) (acc : CsvAcc), acc.wrote = true →
      (cells.foldl (processCellCsvOk m) acc).wrote = true := by
  intro cells
  induction cells with
  | nil => intro acc h; exact h
  | cons cb cells ih =>
    intro acc h
    rw [List.foldl_cons]
    refine ih _ ?_
    show (acc.wrote || _) = true
    rw [h, Bool.true_or]

theorem foldOk_wrote (m : List Block) (cells : List Block) (acc : CsvAcc)
    (hne : cells ≠ [])
    (hspan : ∀ cb ∈ cells, 1 ≤ cb.rowSpan.getD 1 ∧ 1 ≤ cb.columnSpan.getD 1) :
    (cells.foldl (processCellCsvOk m) acc).wrote = true := by
  cases cells with
  | nil => exact absurd rfl hne
  | cons cb cells =>
    rw [List.foldl_cons]
    refine foldOk_wrote_mono m cells _ ?_
    have h1 := hspan cb (List.mem_cons_self cb cells)
    show (acc.wrote || (decide (0 < cb.rowSpan.getD 1) && decide (0 < cb.columnSpan.getD 1)))
      = true
    have hd1 : decide (0 < cb.rowSpan.getD 1) = true := by
      rw [decide_eq_true_iff]
      omega
    have hd2 : decide (0 < cb.columnSpan.getD 1) = true := by
      rw [decide_eq_true_iff]
      omega
    rw [hd1, hd2, Bool.and_true, Bool.or_true]

/-- C2: for a cell list whose cells carry their indices, have spans of at
least 1, and cover pairwise disjoint rectangles, the structural CSV builder
runs without error and writes each cell's resolved text at exactly its
span's top-left grid position, an empty string at every other covered
position, and nothing anywhere else (so untouched positions default to empty
text when the grid is emitted); the accumulated row and column maxima are
exactly the maxima reached by the declared spans, the finished grid has
exactly that many rows and columns, and on a nonempty cell list the emitted
structural rows are exactly that grid. -/
theorem C2_structural_builder (m : List Block) (cells : List Block)
    (hidx : ∀ cb ∈ cells, cb.rowIndex.isSome ∧ cb.columnIndex.isSome)
    (hspan : ∀ cb ∈ cells, 1 ≤ cb.rowSpan.getD 1 ∧ 1 ≤ cb.columnSpan.getD 1)
    (hdisj : cells.Pairwise cellsDisjoint) :
    buildCsvAcc m cells = .ok (buildCsvAccOk m cells) ∧
    (∀ cb ∈ cells,
      (buildCsvAccOk m cells).cmap (cellTL cb) =
        some (get_text_and_confidence_from_block cb m).1 ∧
      ∀ p, cellCovers cb p → p ≠ cellTL cb → (buildCsvAccOk m cells).cmap p = some "") ∧
    (∀ p, (∀ cb ∈ cells, ¬ cellCovers cb p) → (buildCsvAccOk m cells).cmap p = none) ∧
    (buildCsvAccOk m cells).maxR = spanMaxR cells ∧
    (buildCsvAccOk m cells).maxC = spanMaxC cells ∧
    (gridOf (buildCsvAccOk m cells)).length = spanMaxR cells ∧
    (∀ row ∈ gridOf (buildCsvAccOk m cells), row.length = spanMaxC cells) ∧
    (cells ≠ [] → structuralCsvRows m cells = .ok (gridOf (buildCsvAccOk m cells))) := by
  have hfresh : ∀ q, (∃ cb ∈ cells, cellCovers cb q) →
      ((⟨fun _ => none, false, 0, 0⟩ : CsvAcc)).cmap q = none := fun q _ => rfl
  have heval : ∀ p, (buildCsvAccOk m cells).cmap p =
      match cells.find? (fun cb => decide (cellCovers cb p)) with
      | some cb =>
        some (if p = cellTL cb then (get_text_and_confidence_from_block cb m).1 else "")
      | none => none := by
    intro p
    exact buildFold_eval m cells ⟨fun _ => none, false, 0, 0⟩ hspan hdisj hfresh p
  have hmaxR : (buildCsvAccOk m cells).maxR = spanMaxR cells := foldOk_maxR m cells _
  have hmaxC : (buildCsvAccOk m cells).maxC = spanMaxC cells := foldOk_maxC m cells _
  refine ⟨buildOk_eq m cells _ hidx, ?_, ?_, hmaxR, hmaxC, ?_, ?_, ?_⟩
  · intro cb hcb
    have hcov := cellCovers_tl (hspan cb hcb).1 (hspan cb hcb).2
    constructor
    · cases hf : cells.find? (fun cb' => decide (cellCovers cb' (cellTL cb))) with
      | none =>
        rw [List.find?_eq_none] at hf
        have h2 := hf cb hcb
        simp [hcov] at h2
      | some cb' =>
        have hmem' := List.mem_of_find?_eq_some hf
        have hcov' : cellCovers cb' (cellTL cb) := by simpa using List.find?_some hf
        have heq : cb' = cb := covers_unique hdisj hmem' hcb hcov' hcov
        subst heq
        have h2 : (buildCsvAccOk m cells).cmap (cellTL cb') =
            some (if cellTL cb' = cellTL cb' then
              (get_text_and_confidence_from_block cb' m).1 else "") := by
          rw [heval (cellTL cb'), hf]
        rw [h2, if_pos rfl]
    · intro p hcovp hne
      cases hf : cells.find? (fun cb' => decide (cellCovers cb' p)) with
      | none =>
        rw [List.find?_eq_none] at hf
        have h2 := hf cb hcb
        simp [hcovp] at h2
      | some cb' =>
        have hmem' := List.mem_of_find?_eq_some hf
        have hcov' : cellCovers cb' p := by simpa using List.find?_some hf
        have heq : cb' = cb := covers_unique hdisj hmem' hcb hcov' hcovp
        subst heq
        have h2 : (buildCsvAccOk m cells).cmap p =
            some (if p = cellTL cb' then
              (get_text_and_confidence_from_block cb' m).1 else "") := by
          rw [heval p, hf]
        rw [h2, if_neg hne]
  · intro p hnone
    have hf : cells.find? (fun cb => decide (cellCovers cb p)) = none := by
      rw [List.find?_eq_none]
      intro cb hcb
      simpa using hnone cb hcb
    rw [heval p, hf]
  · unfold gridOf
    rw [List.length_map, List.length_range, hmaxR]
  · intro row hrow
    rw [gridOf_uniform (buildCsvAccOk m cells) row hrow, hmaxC]
  · intro hne
    unfold structuralCsvRows
    have hok : buildCsvAcc m cells = .ok (buildCsvAccOk m cells) :=
      buildOk_eq m cells _ hidx
    rw [hok]
    show (if (buildCsvAccOk m cells).wrote = true then Except.ok (gridOf _) else .ok [])
      = _
    have hw : (buildCsvAccOk m cells).wrote = true :=
      foldOk_wrote m cells ⟨fun _ => none, false, 0, 0⟩ hne hspan
    rw [if_pos hw]

/-- C2, witness: on the concrete two-cell table (cell `A` at (1,1) spanning
two rows, cell `B` at (1,2)) the builder places `A` at its top-left, an
empty string at the other covered position (2,1), leaves (5,5) untouched,
and the finished grid has 2 rows. -/
theorem C2_structural_builder_witness :
    (buildCsvAccOk cellsW cellsW).cmap (cellTL cw1) = some "A" ∧
    (buildCsvAccOk cellsW cellsW).cmap (2, 1) = some "" ∧
    (buildCsvAccOk cellsW cellsW).cmap (5, 5) = none ∧
    (gridOf (buildCsvAccOk cellsW cellsW)).length = 2 := by
  have h := C2_structural_builder cellsW cellsW (by decide) (by decide) (by decide)
  refine ⟨(h.2.1 cw1 (by decide)).1.trans (by decide),
    (h.2.1 cw1 (by decide)).2 (2, 1) (by decide) (by decide),
    h.2.2.1 (5, 5) (by decide), h.2.2.2.2.2.1.trans (by decide)⟩

theorem rounded2_round2 (q : ℚ) : rounded2 (round2 q) := by
  unfold rounded2 round2
  rw [div_mul_cancel₀ _ (by norm_num : (100 : ℚ) ≠ 0)]
  exact Rat.den_intCast _

theorem rounded2_zero : rounded2 0 := by decide

theorem extractKV_rounded (blocks m : List Block) :
    ∀ p ∈ extractKeyValuePairs blocks m,
      rounded2 p.keyConfidence ∧ rounded2 p.valueConfidence := by
  intro p hp
  unfold extractKeyValuePairs at hp
  rcases List.mem_map.mp hp with ⟨kb, _, hkb⟩
  rw [← hkb]
  exact ⟨rounded2_round2 _, rounded2_round2 _⟩

theorem rawLines_rounded (blocks m : List Block) :
    ∀ l ∈ (linesOf blocks).map (rawLineFor m), rounded2 l.confidence := by
  intro l hl
  rcases List.mem_map.mp hl with ⟨lb, _, hlb⟩
  rw [← hlb]
  exact rounded2_round2 _

theorem buildRowCells_conf_rounded (ranges : List ColRange) (rowWords : List SpatialWord) :
    ∀ q ∈ (buildRowCells ranges rowWords).2, rounded2 q := by
  have key : ∀ (gs : List (Nat × List SpatialWord)) (acc : List String × List ℚ),
      (∀ q ∈ acc.2, rounded2 q) → ∀ q ∈ (gs.foldl rowCellStep acc).2, rounded2 q := by
    intro gs
    induction gs with
    | nil =>
      intro acc h q hq
      exact h q hq
    | cons g gs ih =>
      intro acc h q hq
      rw [List.foldl_cons] at hq
      refine ih (rowCellStep acc g) ?_ q hq
      intro q' hq'
      simp only [rowCellStep] at hq'
      split at hq'
      · rcases mem_set_elim hq' with h1 | h1
        · rw [h1]
          exact rounded2_round2 _
        · exact h q' h1
      · exact h q' hq'
  refine key _ _ ?_
  intro q hq
  rw [List.eq_of_mem_replicate hq]
  exact rounded2_zero

theorem spatial_cells_rounded (tb : Block) (m : List Block) (st : SpatialTable)
    (h : reconstruct_table_structure_spatially tb m = some st) :
    ∀ sr ∈ st.rows, ∀ c ∈ sr.cells, rounded2 c.confidence := by
  simp only [reconstruct_table_structure_spatially] at h
  split at h
  · cases h
  · split at h
    · cases h
    · split at h
      · cases h
      · split at h
        · cases h
        · cases h
          intro sr hsr c hc
          rcases List.mem_map.mp hsr with ⟨p, _, hp⟩
          rw [← hp] at hc
          unfold mkSRow at hc
          rcases List.mem_map.mp hc with ⟨e, _, hcc⟩
          rw [← hcc]
          show rounded2 ((buildRowCells _ _).2.getD e.1 0)
          rcases getD_mem_or ((buildRowCells _ _).2) e.1 0 with hmem | hdef
          · exact buildRowCells_conf_rounded _ _ _ hmem
          · rw [hdef]
            exact rounded2_zero

theorem mem_upsert_elim {k : Nat × Nat} {v : CellData} :
    ∀ {l : List ((Nat × Nat) × CellData)} {e : (Nat × Nat) × CellData},
      e ∈ upsert k v l → e = (k, v) ∨ e ∈ l := by
  intro l
  induction l with
  | nil =>
    intro e he
    simp only [upsert, List.mem_singleton] at he
    exact Or.inl he
  | cons f rest ih =>
    intro e he
    unfold upsert at he
    split at he
    · rcases List.mem_cons.mp he with h | h
      · exact Or.inl h
      · exact Or.inr (List.mem_cons_of_mem f h)
    · rcases List.mem_cons.mp he with h | h
      · exact Or.inr (h ▸ List.mem_cons_self f rest)
      · rcases ih h with h2 | h2
        · exact Or.inl h2
        · exact Or.inr (List.mem_cons_of_mem f h2)

theorem processCellJson_fold_rounded (m : List Block) :
    ∀ (cells : List Block) (acc : List ((Nat × Nat) × CellData) × Nat × Nat)
      (out : List ((Nat × Nat) × CellData) × Nat × Nat),
      cells.foldlM (processCellJson m) acc = .ok out →
      (∀ e ∈ acc.1, ∀ q, e.2.confidence = some q → rounded2 q) →
      ∀ e ∈ out.1, ∀ q, e.2.confidence = some q → rounded2 q := by
  intro cells
  induction cells with
  | nil =>
    intro acc out h hacc
    simp only [List.foldlM_nil, pure, Except.pure] at h
    cases h
    exact hacc
  | cons cb cells ih =>
    intro acc out h hacc
    rw [List.foldlM_cons] at h
    cases hri : cb.rowIndex with
    | none =>
      unfold processCellJson at h
      rw [hri] at h
      simp [bind, Except.bind] at h
    | some ri =>
      cases hci : cb.columnIndex with
      | none =>
        unfold processCellJson at h
        rw [hri, hci] at h
        simp [bind, Except.bind] at h
      | some ci =>
        have hstep : processCellJson m acc cb = .ok
            (upsert (ri, ci)
              { cellId := cb.id, cellRowIndex := ri, cellColumnIndex := ci,
                cellRowSpan := cb.rowSpan.getD 1, cellColumnSpan := cb.columnSpan.getD 1,
                text := (get_text_and_confidence_from_block cb m).1,
                confidence := some (round2 (get_text_and_confidence_from_block cb m).2),
                geometry := cb.geometry, spatiallyReconstructed := false } acc.1,
              max acc.2.1 (ri + cb.rowSpan.getD 1 - 1),
              max acc.2.2 (ci + cb.columnSpan.getD 1 - 1)) := by
          unfold processCellJson
          rw [hri, hci]
        rw [hstep] at h
        simp only [bind, Except.bind] at h
        refine ih _ out h ?_
        intro e he q hq
        rcases mem_upsert_elim he with h1 | h1
        · rw [h1] at hq
          have hq2 : some (round2 (get_text_and_confidence_from_block cb m).2) = some q := hq
          injection hq2 with hq3
          rw [← hq3]
          exact rounded2_round2 _
        · exact hacc e h1 q hq

theorem addToGroup_vals {P : α → Prop} :
    ∀ (g : List (Nat × List α)) (c : Nat) (w : α),
      (∀ p ∈ g, ∀ x ∈ p.2, P x) → P w → ∀ p ∈ addToGroup g c w, ∀ x ∈ p.2, P x := by
  intro g
  induction g with
  | nil =>
    intro c w _ hw p hp x hx
    simp only [addToGroup, List.mem_singleton] at hp
    rw [hp] at hx
    rcases List.mem_singleton.mp hx with h
    rw [h]
    exact hw
  | cons e rest ih =>
    intro c w hg hw p hp x hx
    unfold addToGroup at hp
    split at hp
    · rcases List.mem_cons.mp hp with h | h
      · rw [h] at hx
        rcases List.mem_append.mp hx with h2 | h2
        · exact hg e (List.mem_cons_self e rest) x h2
        · rw [List.mem_singleton.mp h2]
          exact hw
      · exact hg p (List.mem_cons_of_mem e h) x hx
    · rcases List.mem_cons.mp hp with h | h
      · exact hg p (h ▸ List.mem_cons_self e rest) x hx
      · exact ih c w (fun q hq => hg q (List.mem_cons_of_mem e hq)) hw p h x hx

theorem groupCellsByRow_vals {P : CellData → Prop}
    (entries : List ((Nat × Nat) × CellData)) (hent : ∀ e ∈ entries, P e.2) :
    ∀ g ∈ groupCellsByRow entries, ∀ x ∈ g.2, P x := by
  unfold groupCellsByRow
  have key : ∀ (es : List ((Nat × Nat) × CellData)) (acc : List (Nat × List CellData)),
      (∀ e ∈ es, P e.2) → (∀ g ∈ acc, ∀ x ∈ g.2, P x) →
      ∀ g ∈ es.foldl (fun g e => addToGroup g e.1.1 e.2) acc, ∀ x ∈ g.2, P x := by
    intro es
    induction es with
    | nil =>
      intro acc _ hacc g hg x hx
      exact hacc g hg x hx
    | cons e es ih =>
      intro acc hes hacc g hg x hx
      rw [List.foldl_cons] at hg
      refine ih _ (fun e' he' => hes e' (List.mem_cons_of_mem e he')) ?_ g hg x hx
      exact addToGroup_vals acc e.1.1 e.2 hacc (hes e (List.mem_cons_self e es))
  exact key entries [] hent (fun g hg => absurd hg (List.not_mem_nil g))

theorem structuralCore_rounded (m : List Block) (tb : Block) (cells : List Block)
    (td : TableData) (h : structuralTableDataCore m tb cells = .ok td) :
    ∀ rw ∈ td.rows, ∀ c ∈ rw.cells, ∀ q, c.confidence = some q → rounded2 q := by
  unfold structuralTableDataCore at h
  cases hacc : cells.foldlM (processCellJson m) ([], 0, 0) with
  | error e =>
    rw [hacc] at h
    simp [bind, Except.bind] at h
  | ok acc =>
    rw [hacc] at h
    simp only [bind, Except.bind] at h
    cases h
    intro rw hrw c hc q hq
    rcases List.mem_map.mp hrw with ⟨r, _, hr⟩
    rw [← hr] at hc
    have hc2 := mem_sortLE.mp hc
    have hent : ∀ e ∈ sortLE (fun a b => lexLE a.1 b.1) acc.1,
        ∀ q', e.2.confidence = some q' → rounded2 q' := by
      intro e he q' hq'
      exact processCellJson_fold_rounded m cells ([], 0, 0) acc hacc
        (fun e' he' => absurd he' (List.not_mem_nil e')) e (mem_sortLE.mp he) q' hq'
    cases hfind : (groupCellsByRow (sortLE (fun a b => lexLE a.1 b.1) acc.1)).find?
        (fun g => decide (g.1 = r)) with
    | none =>
      rw [hfind] at hc2
      cases hc2
    | some g =>
      rw [hfind] at hc2
      have hc3 : c ∈ g.2 := by simpa using hc2
      have hgmem := List.mem_of_find?_eq_some hfind
      exact groupCellsByRow_vals
        (P := fun cd => ∀ q', cd.confidence = some q' → rounded2 q') _
        (fun e he => hent e he) g hgmem c hc3 q hq

theorem tableDataFor_rounded (m : List Block) (tb : Block) (td : TableData)
    (h : tableDataFor m tb = .ok (some td)) :
    ∀ rw ∈ td.rows, ∀ c ∈ rw.cells, ∀ q, c.confidence = some q → rounded2 q := by
  unfold tableDataFor at h
  cases hspa : reconstruct_table_structure_spatially tb m with
  | some st =>
    rw [hspa] at h
    cases h
    intro rw hrw c hc q hq
    unfold spatialTableToTableData at hrw
    rcases List.mem_map.mp hrw with ⟨sr, hsr, hr⟩
    rw [← hr] at hc
    rcases List.mem_map.mp hc with ⟨sc, hsc, hcc⟩
    rw [← hcc] at hq
    have hq2 : some sc.confidence = some q := hq
    injection hq2 with hq3
    rw [← hq3]
    exact spatial_cells_rounded tb m st hspa sr hsr sc hsc
  | none =>
    rw [hspa] at h
    unfold structuralTableData at h
    cases hcells : collectCellsWithMerged m tb with
    | nil =>
      rw [hcells] at h
      cases h
    | cons c cs =>
      rw [hcells] at h
      have h2 : Except.map some (structuralTableDataCore m tb (c :: cs))
          = Except.ok (some td) := h
      cases hcore : structuralTableDataCore m tb (c :: cs) with
      | error e =>
        rw [hcore] at h2
        simp [Except.map] at h2
      | ok td' =>
        rw [hcore] at h2
        have h3 : (Except.ok (some td') : Except Unit (Option TableData))
            = .ok (some td) := h2
        have h4 : td' = td := by
          injection h3 with h5
          injection h5
        rw [← h4]
        exact structuralCore_rounded m tb (c :: cs) td' hcore

theorem tablesFold_P (m : List Block) {P : TableData → Prop}
    (hP : ∀ tb td, tableDataFor m tb = .ok (some td) → P td) :
    ∀ (ts : List Block) (acc tds : List TableData),
      ts.foldlM (tablesStep m) acc = .ok tds →
      (∀ td ∈ acc, P td) → ∀ td ∈ tds, P td := by
  intro ts
  induction ts with
  | nil =>
    intro acc tds h hacc
    simp only [List.foldlM_nil, pure, Except.pure] at h
    cases h
    exact hacc
  | cons tb ts ih =>
    intro acc tds h hacc
    rw [List.foldlM_cons] at h
    cases htd : tableDataFor m tb with
    | error e =>
      unfold tablesStep at h
      rw [htd] at h
      simp [bind, Except.bind] at h
    | ok td? =>
      cases td? with
      | none =>
        have hstep : tablesStep m acc tb = .ok acc := by
          unfold tablesStep
          rw [htd]
        rw [hstep] at h
        simp only [bind, Except.bind] at h
        exact ih acc tds h hacc
      | some td =>
        have hstep : tablesStep m acc tb = .ok (acc ++ [td]) := by
          unfold tablesStep
          rw [htd]
        rw [hstep] at h
        simp only [bind, Except.bind] at h
        refine ih (acc ++ [td]) tds h ?_
        intro td' htd'
        rcases List.mem_append.mp htd' with h1 | h1
        · exact hacc td' h1
        · rw [List.mem_singleton.mp h1]
          exact hP tb td htd

/-- C9, amended: a successfully assembled structured record renders with
exactly the top-level field names `originalS3Key`, `processingJobId`,
`documentMetadata` (carrying `pageCount`), `tables`, `keyValuePairs` and
`rawLines` (the spec's `originalSourceKey` does not occur), and every
confidence stored in key/value pairs, raw lines and table cells — spatial or
structural — is rounded to two decimal places; the table-level `confidence`
is passed through from the source block unrounded (see the counterexample). -/
theorem C9_amended_record_shape (blocks m : List Block) (k j : String) (r : SRecord)
    (h : parse_blocks_to_structured_json blocks m k j = .ok r) :
    objKeys r.toJson = ["originalS3Key", "processingJobId", "documentMetadata",
      "tables", "keyValuePairs", "rawLines"] ∧
    (∀ p ∈ r.keyValuePairs, rounded2 p.keyConfidence ∧ rounded2 p.valueConfidence) ∧
    (∀ l ∈ r.rawLines, rounded2 l.confidence) ∧
    (∀ t ∈ r.tables, ∀ rw ∈ t.rows, ∀ c ∈ rw.cells,
      ∀ q, c.confidence = some q → rounded2 q) := by
  unfold parse_blocks_to_structured_json at h
  cases hf : (tablesOf blocks).foldlM (tablesStep m) [] with
  | error e =>
    rw [hf] at h
    cases h
  | ok tds =>
    rw [hf] at h
    cases h
    refine ⟨rfl, extractKV_rounded blocks m, rawLines_rounded blocks m, ?_⟩
    intro t ht
    exact tablesFold_P m (fun tb td htd => tableDataFor_rounded m tb td htd)
      (tablesOf blocks) [] tds hf (fun td htd => absurd htd (List.not_mem_nil td)) t ht

/-- C9, amended, witness: the record assembled from the scenario-B document
renders with the six top-level field names, and its one key/value pair
carries two-decimal confidences. -/
theorem C9_amended_witness :
    objKeys (SRecord.toJson (SRecord.mk "k" "j" 0 []
      [KVPair.mk "Date" 98 "01/01/2024" 95 none (some 1)] [])) =
      ["originalS3Key", "processingJobId", "documentMetadata", "tables",
       "keyValuePairs", "rawLines"] ∧
    ∀ p ∈ (SRecord.mk "k" "j" 0 []
        [KVPair.mk "Date" 98 "01/01/2024" 95 none (some 1)] []).keyValuePairs,
      rounded2 p.keyConfidence ∧ rounded2 p.valueConfidence := by
  have h := C9_amended_record_shape blocks7 blocks7 "k" "j"
    (SRecord.mk "k" "j" 0 [] [KVPair.mk "Date" 98 "01/01/2024" 95 none (some 1)] [])
    (by decide)
  exact ⟨h.1, h.2.1⟩
